import Mathlib

/-! Verification development for the SendGrid provider SDK.

Shallow embedding of the error taxonomy, the opaque API error, the retry
policy and the webhook-security-policy client calls, followed by the theorems
that settle the specification's claims about them.

Conventions of the embedding:
* a Go `error` is `Option GoError` (`none` is the nil error);
* a Go `interface{}` result is `Option ρ` (`none` is the nil interface);
* Go `int` status codes are `Int`;
* `strings.Contains` is list infix on the characters of the two strings.
-/

namespace Sendgrid

/-! ## Go runtime values used by the SDK -/

/-- Go error values: package-level sentinels (told apart by the name of the
variable that holds them), errors made by `errors.New`, and errors made by
`fmt.Errorf` with a `%w` verb, which keep their cause. -/
inductive GoError where
  | sentinel (name : String) (msg : String)
  | new (msg : String)
  | wrap (msg : String) (cause : GoError)
  deriving DecidableEq, Repr

/-- The `Error()` method: the text of an error. -/
def GoError.Error : GoError → String
  | .sentinel _ m => m
  | .new m => m
  | .wrap m _ => m

/-- The `errors.Is` relation: `target` is `e` or one of the causes `e` wraps. -/
def GoError.Is : GoError → GoError → Bool
  | .sentinel n m, target => decide (GoError.sentinel n m = target)
  | .new m, target => decide (GoError.new m = target)
  | .wrap m c, target => decide (GoError.wrap m c = target) || GoError.Is c target

/-- The `strings.Contains` function of the Go standard library. -/
def stringsContains (s substr : String) : Bool :=
  decide (substr.data <:+: s.data)

/-- The `strings.ToLower` function restricted to ASCII case folding. -/
def stringsToLower (s : String) : String :=
  String.mk (s.data.map Char.toLower)

/-- The value every remote operation of the SDK returns. -/
structure RequestError where
  StatusCode : Int
  Err : Option GoError
  deriving DecidableEq, Repr

/-! ## Error taxonomy -/

/-- Modelled from the spec: the status-coded phrase of the table in §4.1, which
`enhanceError` (file `sdk/errors.go`, absent from the sources) selects by the
status code alone. -/
def statusPhrase (statusCode : Int) : String :=
  if statusCode = 400 then "bad request (HTTP 400)"
  else if statusCode = 401 then "unauthorized (HTTP 401)"
  else if statusCode = 403 then "forbidden (HTTP 403)"
  else if statusCode = 404 then "resource not found (HTTP 404)"
  else if statusCode = 429 then "rate limit exceeded (HTTP 429)"
  else if 500 ≤ statusCode ∧ statusCode ≤ 599 then
    "server error (HTTP " ++ toString statusCode ++ ")"
  else "request failed with HTTP " ++ toString statusCode

/-- Modelled from the spec: `enhanceError` of `sdk/errors.go`, absent from the
sources. A nil error is returned unchanged; a non-nil error is wrapped in a new
error whose message is the status-coded phrase followed by the original text. -/
def enhanceError (err : Option GoError) (statusCode : Int) : Option GoError :=
  match err with
  | none => none
  | some e => some (GoError.wrap (statusPhrase statusCode ++ ": " ++ e.Error) e)

/-- Modelled from the spec: `parseErrorDetails` of `sdk/errors.go` (the spec's
`classifyMessage`), absent from the sources. The text of the error is compared
case-insensitively against four rules in order, the first match wins; an absent
error is not enhanced. -/
def parseErrorDetails (err : Option GoError) : String × Bool :=
  match err with
  | none => ("", false)
  | some e =>
    let msg := e.Error
    let lower := stringsToLower msg
    if stringsContains lower "scope" &&
        (stringsContains lower "invalid" || stringsContains lower "unassignable") then
      ("invalid or unassignable scopes: " ++ msg, true)
    else if stringsContains lower "permission" || stringsContains lower "unauthorized" then
      ("permission denied: " ++ msg, true)
    else if stringsContains lower "not found" || stringsContains lower "404" then
      ("resource not found: " ++ msg, true)
    else if stringsContains lower "validation" || stringsContains lower "invalid" then
      ("validation error: " ++ msg, true)
    else
      (msg, false)

/-! ## Opaque API error -/

/-- Values a decoded payload can hold: nil, booleans, integers, strings, slices
and string-keyed maps (kept as association lists). -/
inductive GoValue where
  | nil
  | bool (b : Bool)
  | int (i : Int)
  | str (s : String)
  | list (xs : List GoValue)
  | map (kvs : List (String × GoValue))

/-- Byte-wise order on strings, the order in which `fmt` prints map keys. -/
def stringLess : List Char → List Char → Bool
  | _, [] => false
  | [], _ :: _ => true
  | a :: as, b :: bs =>
    decide (a.toNat < b.toNat) || (decide (a.toNat = b.toNat) && stringLess as bs)

/-- Insertion of a rendered map entry into a list sorted by key. -/
def insertField (kv : String × String) : List (String × String) → List (String × String)
  | [] => [kv]
  | x :: xs => if stringLess kv.1.data x.1.data then kv :: x :: xs else x :: insertField kv xs

/-- Rendered map entries in the order of their keys. -/
def sortFields (kvs : List (String × String)) : List (String × String) :=
  kvs.foldr insertField []

/-- Texts joined with single spaces. -/
def joinSpaces : List String → String
  | [] => ""
  | [x] => x
  | x :: y :: rest => x ++ " " ++ joinSpaces (y :: rest)

mutual
/-- The `%v` rendering of `fmt.Sprintf`. -/
def GoValue.format : GoValue → String
  | .nil => "<nil>"
  | .bool b => if b then "true" else "false"
  | .int i => toString i
  | .str s => s
  | .list xs => "[" ++ joinSpaces (GoValue.formatList xs) ++ "]"
  | .map kvs =>
    "map[" ++ joinSpaces ((sortFields (GoValue.formatFields kvs)).map
      (fun kv => kv.1 ++ ":" ++ kv.2)) ++ "]"
/-- The `%v` rendering of every element of a slice. -/
def GoValue.formatList : List GoValue → List String
  | [] => []
  | x :: rest => x.format :: GoValue.formatList rest
/-- The `%v` rendering of the value of every entry of a map. -/
def GoValue.formatFields : List (String × GoValue) → List (String × String)
  | [] => []
  | (k, v) :: rest => (k, v.format) :: GoValue.formatFields rest
end

/-- The map index expression `m[key]` with its presence flag. -/
def lookupField (key : String) : List (String × GoValue) → Option GoValue
  | [] => none
  | (k, v) :: rest => if k = key then some v else lookupField key rest

/-- The opaque error payload decoded from a response body. -/
structure APIError where
  f : GoValue

/-- Modelled from the spec: `APIError.Detail` (declared in a file absent from
the sources). A keyed structure whose `detail` entry is a string yields that
string; every other payload is rendered whole in its canonical text form, which
leaves a plain string unchanged and turns an absent payload into `<nil>`. -/
def APIError.Detail (e : APIError) : String :=
  match e.f with
  | .map kvs =>
    match lookupField "detail" kvs with
    | some (.str s) => s
    | _ => (GoValue.map kvs).format
  | v => v.format

/-- Modelled from the spec: `APIError.Empty` (declared in a file absent from the
sources): true exactly when the payload is the untyped nil. -/
def APIError.Empty (e : APIError) : Bool :=
  match e.f with
  | .nil => true
  | _ => false

/-! ## Retry policy -/

/-- One invocation of the operation closure: the result and the `RequestError`
it returns, the time the call took, and the state of the world after it. -/
structure Attempt (ρ σ : Type) where
  result : Option ρ
  reqErr : RequestError
  elapsed : Nat
  next : σ

/-- Modelled from the spec: the backoff of the retry policy (§3). The wait
before retry number `n` lasts `backoff n` time units, and a wait takes time. -/
structure RetryPolicy where
  backoff : Nat → Nat
  backoff_pos : ∀ n, 0 < backoff n

/-- Modelled from the spec: what the policy reads from its context and timeout
source: the absolute deadline and the instant, if any, at which the context is
cancelled. -/
structure RetryContext where
  deadline : Nat
  cancelAt : Option Nat

/-- One entry of the log of a run: when the attempt started and what it returned. -/
structure AttemptRecord where
  started : Nat
  reqErr : RequestError
  deriving DecidableEq, Repr

/-- The observable outcome of a run of the retry policy: the returned pair, the
log of the attempts in order, the total time slept, the clock and the state of
the world at return. -/
structure RetryOutcome (ρ σ : Type) where
  result : Option ρ
  err : Option GoError
  attempts : List AttemptRecord
  slept : Nat
  clock : Nat
  final : σ

/-- The error of a cancelled context (`context.Canceled`). -/
def ErrContextCanceled : GoError :=
  GoError.sentinel "context.Canceled" "context canceled"

/-- Whether the context is cancelled strictly before instant `t`. -/
def cancelledBefore (cancelAt : Option Nat) (t : Nat) : Bool :=
  match cancelAt with
  | none => false
  | some c => decide (c < t)

/-- The instant at which a sleep started at `now` is aborted by a cancellation. -/
def abortInstant (cancelAt : Option Nat) (now : Nat) : Nat :=
  match cancelAt with
  | none => now
  | some c => max c now

/-- Modelled from the spec: the attempt loop of `RetryOnRateLimit` (§4.3), whose
source `sdk/errors.go` is absent. Each round invokes the closure once. Success
returns the result with a nil error. A 429 failure stops with the enhanced error
when no time remains, and otherwise sleeps for the backoff interval capped by the
remaining time, aborting with the cancellation error when the context is
cancelled before the sleep ends. Any other failure returns the enhanced error at
once. `fuel` bounds the number of rounds. -/
def retryLoop {ρ σ : Type} (policy : RetryPolicy) (ctx : RetryContext) (op : σ → Attempt ρ σ) :
    Nat → σ → Nat → List AttemptRecord → Nat → Option (RetryOutcome ρ σ)
  | 0, _, _, _, _ => none
  | fuel + 1, s, now, log, slept =>
    let a := op s
    let now1 := now + a.elapsed
    let log1 := log ++ [{ started := now, reqErr := a.reqErr }]
    match a.reqErr.Err with
    | none =>
      some { result := a.result, err := none, attempts := log1, slept := slept,
             clock := now1, final := a.next }
    | some e =>
      if a.reqErr.StatusCode = 429 then
        if ctx.deadline ≤ now1 then
          some { result := none, err := enhanceError (some e) a.reqErr.StatusCode,
                 attempts := log1, slept := slept, clock := now1, final := a.next }
        else
          let d := min (policy.backoff log.length) (ctx.deadline - now1)
          if cancelledBefore ctx.cancelAt (now1 + d) then
            some { result := none, err := some ErrContextCanceled, attempts := log1,
                   slept := slept + (abortInstant ctx.cancelAt now1 - now1),
                   clock := abortInstant ctx.cancelAt now1, final := a.next }
          else
            retryLoop policy ctx op fuel a.next (now1 + d) log1 (slept + d)
      else
        some { result := none, err := enhanceError (some e) a.reqErr.StatusCode,
               attempts := log1, slept := slept, clock := now1, final := a.next }

/-- Modelled from the spec: `RetryOnRateLimit` (§4.3) entered at instant `now`
in world state `s`, with an empty log and nothing slept. -/
def RetryOnRateLimit {ρ σ : Type} (policy : RetryPolicy) (ctx : RetryContext)
    (op : σ → Attempt ρ σ) (fuel : Nat) (now : Nat) (s : σ) : Option (RetryOutcome ρ σ) :=
  retryLoop policy ctx op fuel s now [] 0

/-- The world state in which the `n`-th call of the closure is made. -/
def callState {ρ σ : Type} (op : σ → Attempt ρ σ) (s : σ) : Nat → σ
  | 0 => s
  | n + 1 => callState op (op s).next n

/-- The closure answers every call with status 429 and an error present. -/
def AlwaysRateLimited {ρ σ : Type} (op : σ → Attempt ρ σ) (s : σ) : Prop :=
  ∀ n, (op (callState op s n)).reqErr.StatusCode = 429 ∧
    (op (callState op s n)).reqErr.Err ≠ none

/-! ## Webhook security policy client (`sdk/webhook_security_policy.go`) -/

/-- Request model: the OAuth block of a policy. -/
structure OAuthConfigRequest where
  ClientID : String
  ClientSecret : String
  TokenURL : String
  Scopes : List String
  deriving DecidableEq, Repr

/-- Request model: the signature block of a policy. -/
structure SignatureConfigRequest where
  Enabled : Bool
  deriving DecidableEq, Repr

/-- Request model: the body of a create or update call. -/
structure WebhookSecurityPolicyRequest where
  Name : String
  OAuth : Option OAuthConfigRequest
  Signature : Option SignatureConfigRequest
  deriving DecidableEq, Repr

/-- Response model: the OAuth block of a policy. -/
structure WebhookOAuthPolicyResponse where
  ClientID : String
  TokenURL : String
  Scopes : List String
  deriving DecidableEq, Repr

/-- Response model: the signature keys of a policy. -/
structure WebhookSignatureKeysResponse where
  PublicKey : String
  deriving DecidableEq, Repr

/-- Response model: the policy itself. -/
structure WebhookSecurityPolicyResult where
  ID : String
  Name : String
  OAuth : Option WebhookOAuthPolicyResponse
  Signature : Option WebhookSignatureKeysResponse
  deriving DecidableEq, Repr

/-- Response model: the envelope of a policy. -/
structure WebhookSecurityPolicyResponse where
  Policy : WebhookSecurityPolicyResult
  deriving DecidableEq, Repr

/-- What an HTTP verb wrapper returns: body, status code and transport error. -/
structure Reply where
  body : String
  statusCode : Int
  err : Option GoError
  deriving DecidableEq, Repr

/-- The collaborators of the client that the sources only call: the HTTP verb
wrappers `Get` and `Post`, which act on the state `σ` of the outside world, and
the decoder `json.Unmarshal` at the response type. -/
structure Client (σ : Type) where
  Get : String → String → σ → Reply × σ
  Post : String → String → WebhookSecurityPolicyRequest → σ → Reply × σ
  jsonUnmarshal : String → Except GoError WebhookSecurityPolicyResponse

/-- Modelled from the spec: the sentinel `ErrWebhookSecurityPolicyIdRequired`,
declared in a file absent from the sources; the spec calls it "id required". -/
def ErrWebhookSecurityPolicyIdRequired : GoError :=
  GoError.sentinel "ErrWebhookSecurityPolicyIdRequired" "id required"

/-- The constant `http.StatusOK`. -/
def StatusOK : Int := 200

/-- The constant `http.StatusInternalServerError`. -/
def StatusInternalServerError : Int := 500

/-- The function `parseSecurityPolicyResponse`: decode the body; a failure is
status 500 with a wrapped error, a success is status 200 with no error. -/
def parseSecurityPolicyResponse
    (jsonUnmarshal : String → Except GoError WebhookSecurityPolicyResponse) (respBody : String) :
    Option WebhookSecurityPolicyResponse × RequestError :=
  match jsonUnmarshal respBody with
  | .error err =>
    (none, { StatusCode := StatusInternalServerError,
             Err := some (GoError.wrap
               ("failed parsing security policy response: " ++ err.Error) err) })
  | .ok body => (some body, { StatusCode := StatusOK, Err := none })

/-- The method `Client.ReadWebhookSecurityPolicy`: an empty id is refused before
any request; otherwise the policy is fetched, the status code of the reply is
dropped, a transport error is returned with status 500, and the body is decoded. -/
def ReadWebhookSecurityPolicy {σ : Type} (c : Client σ) (policyId : String) (w : σ) :
    (Option WebhookSecurityPolicyResponse × RequestError) × σ :=
  if policyId = "" then
    ((none, { StatusCode := StatusInternalServerError,
              Err := some ErrWebhookSecurityPolicyIdRequired }), w)
  else
    let r := c.Get "GET" ("/user/webhooks/security/policies/" ++ policyId) w
    match r.1.err with
    | some err => ((none, { StatusCode := StatusInternalServerError, Err := some err }), r.2)
    | none => (parseSecurityPolicyResponse c.jsonUnmarshal r.1.body, r.2)

/-- Modelled from the spec: the sentinel `ErrNameRequired`, declared in a file
absent from the sources; the spec calls it "name required". -/
def ErrNameRequired : GoError :=
  GoError.sentinel "ErrNameRequired" "name required"

/-- Modelled from the spec: the sentinel `ErrFailedCreatingParseWebhook`,
declared in a file absent from the sources; its text is not given anywhere, so
its name stands for it. -/
def ErrFailedCreatingParseWebhook : GoError :=
  GoError.sentinel "ErrFailedCreatingParseWebhook" "ErrFailedCreatingParseWebhook"

/-- Modelled from the spec: the sentinel `ErrFailedDeletingWebhookSecurityPolicy`,
declared in a file absent from the sources; its text is not given anywhere, so
its name stands for it. -/
def ErrFailedDeletingWebhookSecurityPolicy : GoError :=
  GoError.sentinel "ErrFailedDeletingWebhookSecurityPolicy"
    "ErrFailedDeletingWebhookSecurityPolicy"

/-- The constant `http.StatusMultipleChoices`. -/
def StatusMultipleChoices : Int := 300

/-- The constant `http.StatusNotFound`. -/
def StatusNotFound : Int := 404

/-- The body of the loop of `convertInterfaceArrayToStringArray`: a string is
kept, any other value is rendered with `%v`. -/
def convertElement (v : GoValue) : String :=
  match v with
  | .str str => str
  | other => other.format

/-- The loop of `convertInterfaceArrayToStringArray`: element `i` of the input
is converted and stored at index `i` of `result`. -/
def convertLoop : List GoValue → Nat → List String → List String
  | [], _, result => result
  | v :: rest, i, result => convertLoop rest (i + 1) (result.set i (convertElement v))

/-- The function `convertInterfaceArrayToStringArray`. A slice is `none` when it
is nil; a nil input yields the empty non-nil slice, any other input a fresh
slice of the same length filled by the loop. -/
def convertInterfaceArrayToStringArray (input : Option (List GoValue)) : Option (List String) :=
  match input with
  | none => some []
  | some xs => some (convertLoop xs 0 (List.replicate xs.length ""))

/-- The run-time panics the modelled code can raise: a failed single-value type
assertion (with the type that was asked for) and a nil pointer dereference. -/
inductive Panic where
  | interfaceConversion (wanted : String)
  | nilDereference
  deriving DecidableEq, Repr

/-- The type assertion `v.(string)`; the error is the run-time panic. -/
def assertString : Option GoValue → Except Panic String
  | some (.str s) => .ok s
  | _ => .error (Panic.interfaceConversion "string")

/-- The type assertion `v.(bool)`; the error is the run-time panic. -/
def assertBool : Option GoValue → Except Panic Bool
  | some (.bool b) => .ok b
  | _ => .error (Panic.interfaceConversion "bool")

/-- The type assertion `v.([]interface{})`; the error is the run-time panic. -/
def assertSlice : Option GoValue → Except Panic (Option (List GoValue))
  | some (.list xs) => .ok (some xs)
  | _ => .error (Panic.interfaceConversion "[]interface")

/-- The `OAuthConfigRequest` literal built from the `oauth` map by four type
assertions in order. -/
def oauthConfigRequest (oauth : List (String × GoValue)) : Except Panic OAuthConfigRequest := do
  let clientID ← assertString (lookupField "client_id" oauth)
  let clientSecret ← assertString (lookupField "client_secret" oauth)
  let tokenURL ← assertString (lookupField "token_url" oauth)
  let scopes ← assertSlice (lookupField "scopes" oauth)
  pure { ClientID := clientID, ClientSecret := clientSecret, TokenURL := tokenURL,
         Scopes := (convertInterfaceArrayToStringArray scopes).getD [] }

/-- The `SignatureConfigRequest` literal built from the `signature` map. -/
def signatureConfigRequest (signature : List (String × GoValue)) :
    Except Panic SignatureConfigRequest := do
  let enabled ← assertBool (lookupField "enabled" signature)
  pure { Enabled := enabled }

/-- The request that `CreateWebhookSecurityPolicy` and
`UpdateWebhookSecurityPolicy` build, by the same statements, from their
arguments: the blocks are added only for maps with entries. -/
def buildRequest (name : String) (oauth signature : List (String × GoValue)) :
    Except Panic WebhookSecurityPolicyRequest := do
  let oauthBlock ← if oauth.length > 0 then (oauthConfigRequest oauth).map some else pure none
  let signatureBlock ←
    if signature.length > 0 then (signatureConfigRequest signature).map some else pure none
  pure { Name := name, OAuth := oauthBlock, Signature := signatureBlock }

/-- The method `Client.CreateWebhookSecurityPolicy`. The result is an error when
the call panics, and otherwise the returned pair with the world after the call. -/
def CreateWebhookSecurityPolicy {σ : Type} (c : Client σ) (name : String)
    (oauth signature : List (String × GoValue)) (w : σ) :
    Except Panic ((Option WebhookSecurityPolicyResponse × RequestError) × σ) :=
  if name = "" then
    .ok ((none, { StatusCode := StatusInternalServerError, Err := some ErrNameRequired }), w)
  else
    match buildRequest name oauth signature with
    | .error p => .error p
    | .ok request =>
      let r := c.Post "POST" "/user/webhooks/security/policies" request w
      match r.1.err with
      | some err =>
        .ok ((none, { StatusCode := StatusInternalServerError,
                      Err := some (GoError.wrap
                        ("failed creating webhook security policy: " ++ err.Error) err) }), r.2)
      | none =>
        if r.1.statusCode ≥ StatusMultipleChoices then
          .ok ((none, { StatusCode := r.1.statusCode,
                        Err := some (GoError.wrap
                          (ErrFailedCreatingParseWebhook.Error ++ ", status: " ++
                            toString r.1.statusCode ++ ", response: " ++ r.1.body)
                          ErrFailedCreatingParseWebhook) }), r.2)
        else
          .ok (parseSecurityPolicyResponse c.jsonUnmarshal r.1.body, r.2)

/-- The method `Client.UpdateWebhookSecurityPolicy`. The result is an error when
the call panics, and otherwise the returned value with the world after the call. -/
def UpdateWebhookSecurityPolicy {σ : Type} (c : Client σ) (policyId name : String)
    (oauth signature : List (String × GoValue)) (w : σ) : Except Panic (RequestError × σ) :=
  if policyId = "" then
    .ok ({ StatusCode := StatusInternalServerError,
           Err := some ErrWebhookSecurityPolicyIdRequired }, w)
  else if name = "" then
    .ok ({ StatusCode := StatusInternalServerError, Err := some ErrNameRequired }, w)
  else
    match buildRequest name oauth signature with
    | .error p => .error p
    | .ok request =>
      let r := c.Post "PATCH" ("/user/webhooks/security/policies/" ++ policyId) request w
      match r.1.err with
      | some err =>
        .ok ({ StatusCode := StatusInternalServerError,
               Err := some (GoError.wrap
                 ("failed updating webhook security policy: " ++ err.Error) err) }, r.2)
      | none =>
        if r.1.statusCode ≥ StatusMultipleChoices then
          .ok ({ StatusCode := r.1.statusCode,
                 Err := some (GoError.new
                   ("failed updating webhook security policy, status: " ++
                     toString r.1.statusCode)) }, r.2)
        else
          .ok ({ StatusCode := StatusOK, Err := none }, r.2)

/-- The method `Client.DeleteWebhookSecurityPolicy`. -/
def DeleteWebhookSecurityPolicy {σ : Type} (c : Client σ) (policyId : String) (w : σ) :
    (Bool × RequestError) × σ :=
  if policyId = "" then
    ((false, { StatusCode := StatusInternalServerError,
               Err := some ErrWebhookSecurityPolicyIdRequired }), w)
  else
    let r := c.Get "DELETE" ("/user/webhooks/security/policies/" ++ policyId) w
    match r.1.err with
    | some err => ((false, { StatusCode := StatusInternalServerError, Err := some err }), r.2)
    | none =>
      if r.1.statusCode ≥ StatusMultipleChoices ∧ r.1.statusCode ≠ StatusNotFound then
        ((false, { StatusCode := r.1.statusCode,
                   Err := some (GoError.wrap
                     (ErrFailedDeletingWebhookSecurityPolicy.Error ++ ", status: " ++
                       toString r.1.statusCode ++ ", response: " ++ r.1.body)
                     ErrFailedDeletingWebhookSecurityPolicy) }), r.2)
      else
        ((true, { StatusCode := StatusOK, Err := none }), r.2)

/-- The reply of the transport to the request of `CreateWebhookSecurityPolicy`. -/
def createReply {σ : Type} (c : Client σ) (request : WebhookSecurityPolicyRequest) (w : σ) :
    Reply :=
  (c.Post "POST" "/user/webhooks/security/policies" request w).1

/-- The reply of the transport to the request of `ReadWebhookSecurityPolicy`. -/
def readReply {σ : Type} (c : Client σ) (policyId : String) (w : σ) : Reply :=
  (c.Get "GET" ("/user/webhooks/security/policies/" ++ policyId) w).1

/-- The reply of the transport to the request of `UpdateWebhookSecurityPolicy`. -/
def updateReply {σ : Type} (c : Client σ) (policyId : String)
    (request : WebhookSecurityPolicyRequest) (w : σ) : Reply :=
  (c.Post "PATCH" ("/user/webhooks/security/policies/" ++ policyId) request w).1

/-- The reply of the transport to the request of `DeleteWebhookSecurityPolicy`. -/
def deleteReply {σ : Type} (c : Client σ) (policyId : String) (w : σ) : Reply :=
  (c.Get "DELETE" ("/user/webhooks/security/policies/" ++ policyId) w).1

/-! ## Terraform resource state and diagnostics (external library) -/

/-- The map assignment `m[key] = v`. -/
def mapSet (key : String) (v : GoValue) : List (String × GoValue) → List (String × GoValue)
  | [] => [(key, v)]
  | (k, x) :: rest => if k = key then (key, v) :: rest else (k, x) :: mapSet key v rest

/-- Whether a value is the zero value of its type. -/
def GoValue.isZero : GoValue → Bool
  | .nil => true
  | .bool b => !b
  | .int i => decide (i = 0)
  | .str s => decide (s = "")
  | .list xs => xs.isEmpty
  | .map kvs => kvs.isEmpty

/-- The zero value the schemas of the two resources give to each attribute. -/
def schemaZero (key : String) : GoValue :=
  if key = "oauth" ∨ key = "signature" then GoValue.list []
  else if key = "spam_check" ∨ key = "send_raw" then GoValue.bool false
  else GoValue.str ""

/-- The state of a resource as `schema.ResourceData` of the Terraform plugin SDK
presents it: the id and the attributes by name. -/
structure ResourceData where
  id : String
  attrs : List (String × GoValue)

/-- The method `ResourceData.Id`. -/
def ResourceData.Id (d : ResourceData) : String := d.id

/-- The method `ResourceData.SetId`. -/
def ResourceData.SetId (d : ResourceData) (id : String) : ResourceData :=
  { d with id := id }

/-- The fields the schema of the policy resource gives to the blocks of its two
list attributes, each with the zero value of its type. -/
def blockSchema (key : String) : Option (List (String × GoValue)) :=
  if key = "oauth" then
    some [("client_id", GoValue.str ""), ("client_secret", GoValue.str ""),
          ("token_url", GoValue.str ""), ("scopes", GoValue.list [])]
  else if key = "signature" then
    some [("enabled", GoValue.bool false), ("public_key", GoValue.str "")]
  else none

/-- A block as the state presents it: every field of the schema, with the value
of the written map when it has one and the zero value of the field otherwise. -/
def normalizeBlock (fields : List (String × GoValue)) (m : List (String × GoValue)) :
    List (String × GoValue) :=
  fields.map (fun field => (field.1, (lookupField field.1 m).getD field.2))

/-- A value as the state presents it under the schema of its attribute: the
blocks of a list attribute are presented field by field, any other value as it
is. -/
def normalizeValue (key : String) (v : GoValue) : GoValue :=
  match blockSchema key, v with
  | some fields, .list items =>
    GoValue.list (items.map (fun item =>
      match item with
      | .map m => GoValue.map (normalizeBlock fields m)
      | other => other))
  | _, _ => v

/-- The method `ResourceData.Set`: the attribute takes the value, as the schema
of the attribute presents it when it is read back. -/
def ResourceData.Set (d : ResourceData) (key : String) (v : GoValue) : ResourceData :=
  { d with attrs := mapSet key (normalizeValue key v) d.attrs }

/-- The method `ResourceData.Get`: the attribute, or the zero value of its type. -/
def ResourceData.Get (d : ResourceData) (key : String) : GoValue :=
  (lookupField key d.attrs).getD (schemaZero key)

/-- The method `ResourceData.GetOk`: the attribute and whether it is set to a
value other than the zero value. -/
def ResourceData.GetOk (d : ResourceData) (key : String) : GoValue × Bool :=
  match lookupField key d.attrs with
  | none => (schemaZero key, false)
  | some v => (v, !v.isZero)

/-- One error diagnostic with its summary. -/
structure Diagnostic where
  summary : String
  deriving DecidableEq, Repr

/-- The function `diag.FromErr`: no diagnostics for a nil error, one error
diagnostic carrying the text of the error otherwise. -/
def diagFromErr (err : Option GoError) : List Diagnostic :=
  match err with
  | none => []
  | some e => [{ summary := e.Error }]

/-! ## Webhook security policy resource
(`sendgrid/resource_sendgrid_webhook_security_policy.go`) -/

/-- The statements shared by Create, Update and Read that fetch the single block
of a list attribute: the map at index 0 when the attribute is set, the list is
not empty and its first element is not nil; the nil map (`none`) otherwise. -/
def blockOf (d : ResourceData) (key : String) :
    Except Panic (Option (List (String × GoValue))) :=
  if (d.GetOk key).2 then
    match (d.GetOk key).1 with
    | .list [] => .ok none
    | .list (.nil :: _) => .ok none
    | .list (.map m :: _) => .ok (some m)
    | .list (_ :: _) => .error (Panic.interfaceConversion "map[string]interface")
    | _ => .error (Panic.interfaceConversion "[]interface")
  else .ok none

/-- The statements of Read that refresh the `oauth` attribute: the block of the
response, to which the client secret of the state is added when the state has
one; the empty list when the response has no oauth policy. -/
def refreshOAuth (policy : WebhookSecurityPolicyResult) (d : ResourceData) :
    Except Panic ResourceData :=
  match policy.OAuth with
  | some oauth =>
    match blockOf d "oauth" with
    | .error p => .error p
    | .ok existingOAuth =>
      let oauthMap : List (String × GoValue) :=
        [("client_id", GoValue.str oauth.ClientID),
         ("token_url", GoValue.str oauth.TokenURL),
         ("scopes", GoValue.list (oauth.Scopes.map GoValue.str))]
      match existingOAuth with
      | some existing =>
        match lookupField "client_secret" existing with
        | some clientSecret =>
          .ok (d.Set "oauth" (GoValue.list [GoValue.map (mapSet "client_secret" clientSecret oauthMap)]))
        | none => .ok (d.Set "oauth" (GoValue.list [GoValue.map oauthMap]))
      | none => .ok (d.Set "oauth" (GoValue.list [GoValue.map oauthMap]))
  | none => .ok (d.Set "oauth" (GoValue.list []))

/-- The statements of Read that refresh the `signature` attribute: `enabled`
tells whether the response has a public key, `public_key` is stored only when
it is not empty; without a signature in the response the attribute is kept. -/
def refreshSignature (policy : WebhookSecurityPolicyResult) (d : ResourceData) : ResourceData :=
  match policy.Signature with
  | some signature =>
    let signatureMap : List (String × GoValue) :=
      [("enabled", GoValue.bool (decide (signature.PublicKey ≠ "")))]
    if signature.PublicKey ≠ "" then
      d.Set "signature" (GoValue.list
        [GoValue.map (mapSet "public_key" (GoValue.str signature.PublicKey) signatureMap)])
    else
      d.Set "signature" (GoValue.list [GoValue.map signatureMap])
  | none =>
    if (d.GetOk "signature").2 then d.Set "signature" (d.GetOk "signature").1
    else d.Set "signature" (GoValue.list [])

/-- The map that Read builds from the signature of the response before it stores
it: `enabled` tells whether the public key is not empty, and `public_key` is
added only for a key that is not empty. -/
def signatureMapOf (signature : WebhookSignatureKeysResponse) : List (String × GoValue) :=
  if signature.PublicKey ≠ "" then
    mapSet "public_key" (GoValue.str signature.PublicKey)
      [("enabled", GoValue.bool (decide (signature.PublicKey ≠ "")))]
  else
    [("enabled", GoValue.bool (decide (signature.PublicKey ≠ "")))]

/-- The function `resourceSendgridWebhookSecurityPolicyRead`: the diagnostics and
the state it leaves, with the world after the call; an error is a panic. -/
def resourceSendgridWebhookSecurityPolicyRead {σ : Type} (c : Client σ) (d : ResourceData)
    (w : σ) : Except Panic ((List Diagnostic × ResourceData) × σ) :=
  let r := ReadWebhookSecurityPolicy c d.Id w
  match r.1.2.Err with
  | some e => .ok ((diagFromErr (some e), d), r.2)
  | none =>
    match r.1.1 with
    | none => .error Panic.nilDereference
    | some webhook =>
      match refreshOAuth webhook.Policy (d.Set "name" (GoValue.str webhook.Policy.Name)) with
      | .error p => .error p
      | .ok d1 => .ok (([], refreshSignature webhook.Policy d1), r.2)

/-- The absent function `RetryOnRateLimit` as the resources see it: it is handed
a closure and returns an `interface{}` result (`none` is the nil interface) and
an error. -/
abbrev Retry (ρ σ : Type) : Type :=
  (σ → Except Panic ((Option ρ × RequestError) × σ)) → σ →
    Except Panic ((Option ρ × Option GoError) × σ)

/-- The single-value type assertion `x.(*T)` on an `interface{}` result: the nil
interface panics, a pointer of the type (nil or not) is returned. -/
def assertPointer {α : Type} (wanted : String) : Option (Option α) → Except Panic (Option α)
  | none => .error (Panic.interfaceConversion wanted)
  | some p => .ok p

/-- The function `resourceSendgridWebhookSecurityPolicyCreate`: the arguments are
read from the state, the create call is run under the retry policy, its result
is type-asserted, then the error is tested, and on success the id is set and
the resource is read. -/
def resourceSendgridWebhookSecurityPolicyCreate {σ : Type}
    (retry : Retry (Option WebhookSecurityPolicyResponse) σ) (c : Client σ)
    (d : ResourceData) (w : σ) : Except Panic ((List Diagnostic × ResourceData) × σ) :=
  match assertString (some (d.Get "name")) with
  | .error p => .error p
  | .ok name =>
    match blockOf d "oauth" with
    | .error p => .error p
    | .ok oauth =>
      match blockOf d "signature" with
      | .error p => .error p
      | .ok signature =>
        match retry (fun w0 =>
            (CreateWebhookSecurityPolicy c name (oauth.getD []) (signature.getD []) w0).map
              (fun r => ((some r.1.1, r.1.2), r.2))) w with
        | .error p => .error p
        | .ok r =>
          match assertPointer "*sendgrid.WebhookSecurityPolicyResponse" r.1.1 with
          | .error p => .error p
          | .ok securityPolicy =>
            match r.1.2 with
            | some err => .ok ((diagFromErr (some err), d), r.2)
            | none =>
              match securityPolicy with
              | none => .error Panic.nilDereference
              | some policy =>
                resourceSendgridWebhookSecurityPolicyRead c (d.SetId policy.Policy.ID) r.2

/-! ## Parse webhook resource (`sendgrid/resource_sendgrid_parse_webhook.go`) -/

/-- The type `ParseWebhook` of the SDK, declared in a file absent from the
sources, with the fields the resource reads. -/
structure ParseWebhook where
  Hostname : String
  URL : String
  SpamCheck : Bool
  SendRaw : Bool
  SecurityPolicy : String
  deriving DecidableEq, Repr

/-- The parse-webhook calls of the SDK, whose file is absent from the sources:
the resource only calls them, so they are taken as they come. -/
structure ParseWebhookClient (σ : Type) where
  CreateParseWebhook : String → String → Bool → Bool → String → σ →
    (Option ParseWebhook × RequestError) × σ
  ReadParseWebhook : String → σ → (Option ParseWebhook × RequestError) × σ
  UpdateParseWebhook : String → Bool → Bool → String → σ → RequestError × σ
  DeleteParseWebhook : String → σ → (Bool × RequestError) × σ

/-- The function `resourceSendgridParseWebhookRead`. -/
def resourceSendgridParseWebhookRead {σ : Type} (c : ParseWebhookClient σ) (d : ResourceData)
    (w : σ) : Except Panic ((List Diagnostic × ResourceData) × σ) :=
  let r := c.ReadParseWebhook d.Id w
  match r.1.2.Err with
  | some e => .ok ((diagFromErr (some e), d), r.2)
  | none =>
    match r.1.1 with
    | none => .error Panic.nilDereference
    | some webhook =>
      .ok (([], ((((d.Set "hostname" (GoValue.str webhook.Hostname)).Set "url"
        (GoValue.str webhook.URL)).Set "spam_check" (GoValue.bool webhook.SpamCheck)).Set
        "send_raw" (GoValue.bool webhook.SendRaw)).Set "webhook_security_policy_id"
        (GoValue.str webhook.SecurityPolicy)), r.2)

/-- The function `resourceSendgridParseWebhookCreate`: the arguments are read
from the state, the create call is run under the retry policy, its result is
type-asserted, then the error is tested, and on success the id is set and the
resource is read. -/
def resourceSendgridParseWebhookCreate {σ : Type} (retry : Retry (Option ParseWebhook) σ)
    (c : ParseWebhookClient σ) (d : ResourceData) (w : σ) :
    Except Panic ((List Diagnostic × ResourceData) × σ) :=
  match assertString (some (d.Get "hostname")) with
  | .error p => .error p
  | .ok hostname =>
    match assertString (some (d.Get "url")) with
    | .error p => .error p
    | .ok url =>
      match assertBool (some (d.Get "spam_check")) with
      | .error p => .error p
      | .ok spamCheck =>
        match assertBool (some (d.Get "send_raw")) with
        | .error p => .error p
        | .ok sendRaw =>
          match assertString (some (d.Get "webhook_security_policy_id")) with
          | .error p => .error p
          | .ok securityPolicy =>
            match retry (fun w0 =>
                .ok ((some (c.CreateParseWebhook hostname url spamCheck sendRaw securityPolicy
                  w0).1.1, (c.CreateParseWebhook hostname url spamCheck sendRaw securityPolicy
                  w0).1.2), (c.CreateParseWebhook hostname url spamCheck sendRaw securityPolicy
                  w0).2)) w with
            | .error p => .error p
            | .ok r =>
              match assertPointer "*sendgrid.ParseWebhook" r.1.1 with
              | .error p => .error p
              | .ok webhook =>
                match r.1.2 with
                | some err => .ok ((diagFromErr (some err), d), r.2)
                | none =>
                  match webhook with
                  | none => .error Panic.nilDereference
                  | some hook => resourceSendgridParseWebhookRead c (d.SetId hook.Hostname) r.2

/-- The closure of `resourceSendgridWebhookSecurityPolicyCreate`: it returns what
`CreateWebhookSecurityPolicy` returns, the response pointer (nil or not) carried
in the `interface{}` result. -/
def createPolicyClosure {σ : Type} (c : Client σ) (name : String)
    (oauth signature : Option (List (String × GoValue))) :
    σ → Except Panic ((Option (Option WebhookSecurityPolicyResponse) × RequestError) × σ) :=
  fun w0 =>
    (CreateWebhookSecurityPolicy c name (oauth.getD []) (signature.getD []) w0).map
      (fun r => ((some r.1.1, r.1.2), r.2))

/-- The closure of `resourceSendgridParseWebhookCreate`: it returns what
`CreateParseWebhook` returns, the webhook pointer (nil or not) carried in the
`interface{}` result. -/
def createWebhookClosure {σ : Type} (c : ParseWebhookClient σ) (hostname url : String)
    (spamCheck sendRaw : Bool) (securityPolicy : String) :
    σ → Except Panic ((Option (Option ParseWebhook) × RequestError) × σ) :=
  fun w0 =>
    .ok ((some (c.CreateParseWebhook hostname url spamCheck sendRaw securityPolicy w0).1.1,
          (c.CreateParseWebhook hostname url spamCheck sendRaw securityPolicy w0).1.2),
         (c.CreateParseWebhook hostname url spamCheck sendRaw securityPolicy w0).2)

/-- The first closure of `resourceSendgridParseWebhookDelete`: it returns the nil
result with what `UpdateParseWebhook` returns for an empty security policy. -/
def detachClosure {σ : Type} (c : ParseWebhookClient σ) (hostname : String)
    (spamCheck sendRaw : Bool) : σ → Except Panic ((Option Bool × RequestError) × σ) :=
  fun w0 =>
    .ok ((none, (c.UpdateParseWebhook hostname spamCheck sendRaw "" w0).1),
         (c.UpdateParseWebhook hostname spamCheck sendRaw "" w0).2)

/-- The second closure of `resourceSendgridParseWebhookDelete`: it returns what
`DeleteParseWebhook` returns. -/
def deleteClosure {σ : Type} (c : ParseWebhookClient σ) (hostname : String) :
    σ → Except Panic ((Option Bool × RequestError) × σ) :=
  fun w0 =>
    .ok ((some (c.DeleteParseWebhook hostname w0).1.1, (c.DeleteParseWebhook hostname w0).1.2),
         (c.DeleteParseWebhook hostname w0).2)

/-- The statements of `resourceSendgridParseWebhookDelete` after its `if` block:
the delete call is run under the retry policy and its error, if any, becomes
the diagnostics. -/
def deleteUnderRetry {σ : Type} (retry : Retry Bool σ) (c : ParseWebhookClient σ)
    (d : ResourceData) (w : σ) : Except Panic ((List Diagnostic × ResourceData) × σ) :=
  match retry (deleteClosure c d.Id) w with
  | .error p => .error p
  | .ok r =>
    match r.1.2 with
    | some err => .ok ((diagFromErr (some err), d), r.2)
    | none => .ok (([], d), r.2)

/-- The function `resourceSendgridParseWebhookDelete`: when the state names a
security policy, the webhook is first updated under the retry policy with an
empty security policy and the `spam_check` and `send_raw` of the state, and an
error of that update is returned at once; then the webhook is deleted. -/
def resourceSendgridParseWebhookDelete {σ : Type} (retry : Retry Bool σ)
    (c : ParseWebhookClient σ) (d : ResourceData) (w : σ) :
    Except Panic ((List Diagnostic × ResourceData) × σ) :=
  match assertString (some (d.Get "webhook_security_policy_id")) with
  | .error p => .error p
  | .ok securityPolicyId =>
    if securityPolicyId ≠ "" then
      match assertBool (some (d.Get "spam_check")) with
      | .error p => .error p
      | .ok spamCheck =>
        match assertBool (some (d.Get "send_raw")) with
        | .error p => .error p
        | .ok sendRaw =>
          match retry (detachClosure c d.Id spamCheck sendRaw) w with
          | .error p => .error p
          | .ok r =>
            match r.1.2 with
            | some updateErr => .ok ((diagFromErr (some updateErr), d), r.2)
            | none => deleteUnderRetry retry c d r.2
    else
      deleteUnderRetry retry c d w

/-! ## Observing the calls a resource issues -/

/-- One call of the parse-webhook SDK, with its arguments. -/
inductive ParseWebhookCall where
  | create (hostname url : String) (spamCheck sendRaw : Bool) (securityPolicy : String)
  | read (hostname : String)
  | update (hostname : String) (spamCheck sendRaw : Bool) (securityPolicy : String)
  | delete (hostname : String)
  deriving DecidableEq, Repr

/-- What a server answers to each call, given the calls it has received so far. -/
structure ParseWebhookServer where
  createReply : List ParseWebhookCall → Option ParseWebhook × RequestError
  readReply : List ParseWebhookCall → Option ParseWebhook × RequestError
  updateReply : List ParseWebhookCall → RequestError
  deleteReply : List ParseWebhookCall → Bool × RequestError

/-- The parse-webhook SDK in front of a server, with the list of the calls issued
so far as the state of the world: every call is appended to the list. -/
def recordingParseWebhooks (server : ParseWebhookServer) :
    ParseWebhookClient (List ParseWebhookCall) :=
  { CreateParseWebhook := fun hostname url spamCheck sendRaw securityPolicy log =>
      (server.createReply log,
        log ++ [ParseWebhookCall.create hostname url spamCheck sendRaw securityPolicy]),
    ReadParseWebhook := fun hostname log =>
      (server.readReply log, log ++ [ParseWebhookCall.read hostname]),
    UpdateParseWebhook := fun hostname spamCheck sendRaw securityPolicy log =>
      (server.updateReply log,
        log ++ [ParseWebhookCall.update hostname spamCheck sendRaw securityPolicy]),
    DeleteParseWebhook := fun hostname log =>
      (server.deleteReply log, log ++ [ParseWebhookCall.delete hostname]) }

/-- The world after `n` successive calls of a closure, when none of them panics. -/
def closureRuns {ρ σ : Type} (f : σ → Except Panic ((Option ρ × RequestError) × σ)) :
    Nat → σ → Option σ
  | 0, w => some w
  | n + 1, w =>
    match f w with
    | .ok r => closureRuns f n r.2
    | .error _ => none

/-- Modelled from the spec: the side effects of `RetryOnRateLimit` (§4.3), whose
source is absent: a run that returns has invoked the closure at least once, and
the world it leaves is the one its invocations of the closure leave. -/
def InvokesClosure {ρ σ : Type} (retry : Retry ρ σ) : Prop :=
  ∀ f w r, retry f w = .ok r → ∃ n, 1 ≤ n ∧ closureRuns f n w = some r.2

/-! ## Scenarios used to exercise the definitions -/

/-- The closure of the test "successful operation": status 200 and no error. -/
def successOp : Unit → Attempt String Unit :=
  fun _ => { result := some "success", reqErr := { StatusCode := 200, Err := none },
             elapsed := 1, next := () }

/-- The closure of the test "non-retryable error": status 400 with an error. -/
def badRequestOp : Unit → Attempt String Unit :=
  fun _ => { result := none,
             reqErr := { StatusCode := 400, Err := some (GoError.new "bad request") },
             elapsed := 1, next := () }

/-- A closure that is rate limited on every call, each call taking one time unit. -/
def rateLimitedOp : Unit → Attempt String Unit :=
  fun _ => { result := none,
             reqErr := { StatusCode := 429, Err := some (GoError.new "too many requests") },
             elapsed := 1, next := () }

/-- A constant backoff of one time unit. -/
def constantBackoff : RetryPolicy :=
  { backoff := fun _ => 1, backoff_pos := fun _ => Nat.one_pos }

/-- A context that is never cancelled, with its deadline at instant `deadline`. -/
def uncancelled (deadline : Nat) : RetryContext :=
  { deadline := deadline, cancelAt := none }

/-- The response `json.Unmarshal` leaves when the body has no "policy" key. -/
def zeroResponse : WebhookSecurityPolicyResponse :=
  { Policy := { ID := "", Name := "", OAuth := none, Signature := none } }

/-- A server on which the policy no longer exists: every request is answered
with status 404 and an error body, without a transport error. -/
def goneServer : Client Unit :=
  { Get := fun _ _ w =>
      ({ body := "\x7b\"errors\":[\x7b\"message\":\"not found\"\x7d]\x7d",
         statusCode := 404, err := none }, w),
    Post := fun _ _ _ w =>
      ({ body := "\x7b\"errors\":[\x7b\"message\":\"not found\"\x7d]\x7d",
         statusCode := 404, err := none }, w),
    jsonUnmarshal := fun _ => Except.ok zeroResponse }

/-- A policy as the server returns it after a successful call. -/
def sampleResponse : WebhookSecurityPolicyResponse :=
  { Policy := { ID := "policy-1", Name := "sample", OAuth := none, Signature := none } }

/-- A server that counts the requests it receives in the world state and
answers every one of them with `reply`; an empty body does not decode. -/
def countingServer (reply : Reply) : Client Nat :=
  { Get := fun _ _ n => (reply, n + 1),
    Post := fun _ _ _ n => (reply, n + 1),
    jsonUnmarshal := fun body =>
      if body = "" then Except.error (GoError.new "unexpected end of JSON input")
      else Except.ok sampleResponse }

/-- The reply of a rate-limiting server. -/
def tooManyRequests : Reply :=
  { body := "too many requests", statusCode := 429, err := none }

/-- The reply of the wrapper when the connection is reset. -/
def connectionReset : Reply :=
  { body := "", statusCode := 0, err := some (GoError.new "connection reset by peer") }

/-- The reply of a server on which the policy is already gone. -/
def notFound : Reply :=
  { body := "not found", statusCode := 404, err := none }

/-- The reply of a server that answers 200 with an empty body. -/
def emptyBody : Reply :=
  { body := "", statusCode := 200, err := none }

/-- The reply of a server that refuses the request with status 400. -/
def badRequest : Reply :=
  { body := "bad request", statusCode := 400, err := none }

/-- The reply of a server that returns the policy. -/
def found : Reply :=
  { body := "policy", statusCode := 200, err := none }

/-- A policy with an oauth block, as the server returns it: without the secret. -/
def oauthPolicy : WebhookSecurityPolicyResponse :=
  { Policy := { ID := "policy-1", Name := "OIDC Only Policy",
                OAuth := some { ClientID := "client-2", TokenURL := "http://oauth.example.com/token",
                                Scopes := ["webhooks:read", "webhooks:write"] },
                Signature := none } }

/-- A policy with a signature, as the server returns it: with its public key. -/
def signedPolicy : WebhookSecurityPolicyResponse :=
  { Policy := { ID := "policy-1", Name := "Signature Only Policy", OAuth := none,
                Signature := some { PublicKey := "public-key-1" } } }

/-- A policy whose signature object comes back from the server without a key. -/
def keylessPolicy : WebhookSecurityPolicyResponse :=
  { Policy := { ID := "policy-1", Name := "Signature Only Policy", OAuth := none,
                Signature := some { PublicKey := "" } } }

/-- The error `CreateWebhookSecurityPolicy` returns for the reply `badRequest`. -/
def createRefused : GoError :=
  GoError.wrap (ErrFailedCreatingParseWebhook.Error ++ ", status: " ++ toString (400 : Int) ++
    ", response: " ++ "bad request") ErrFailedCreatingParseWebhook

/-- A server that counts its requests and returns `response` for every one. -/
def policyServer (response : WebhookSecurityPolicyResponse) : Client Nat :=
  { Get := fun _ _ n => (found, n + 1),
    Post := fun _ _ _ n => (found, n + 1),
    jsonUnmarshal := fun _ => Except.ok response }

/-- A state that holds an oauth block with its client secret. -/
def oauthState : ResourceData :=
  { id := "policy-1",
    attrs := [("name", GoValue.str "OIDC Only Policy"),
              ("oauth", GoValue.list [GoValue.map
                [("client_id", GoValue.str "client-1"),
                 ("client_secret", GoValue.str "secret-1"),
                 ("token_url", GoValue.str "http://oauth.example.com/token"),
                 ("scopes", GoValue.list [GoValue.str "webhooks:read"])]])] }

/-- A state that holds a signature block, before the resource has an id. -/
def signatureState : ResourceData :=
  { id := "",
    attrs := [("name", GoValue.str "Signature Only Policy"),
              ("signature", GoValue.list [GoValue.map [("enabled", GoValue.bool true)]])] }

/-- A state of a parse webhook, before the resource has an id. -/
def webhookState : ResourceData :=
  { id := "",
    attrs := [("hostname", GoValue.str "parse.foo.bar"),
              ("url", GoValue.str "https://foo.bar/sendgrid/inbound")] }

/-- A parse-webhook SDK whose calls all fail with status 400. -/
def failingParseWebhooks : ParseWebhookClient Nat :=
  { CreateParseWebhook := fun _ _ _ _ _ n =>
      ((none, { StatusCode := 400, Err := some (GoError.new "bad request") }), n + 1),
    ReadParseWebhook := fun _ n =>
      ((none, { StatusCode := 400, Err := some (GoError.new "bad request") }), n + 1),
    UpdateParseWebhook := fun _ _ _ _ n =>
      ({ StatusCode := 400, Err := some (GoError.new "bad request") }, n + 1),
    DeleteParseWebhook := fun _ n =>
      ((false, { StatusCode := 400, Err := some (GoError.new "bad request") }), n + 1) }

/-- A run of the retry policy that fails the way its contract specifies: the
closure is called once, and the nil result is returned with the enhanced error
of the failure (or the closure's error-free result as it is). -/
def contractRetry {ρ σ : Type} : Retry ρ σ :=
  fun f w =>
    match f w with
    | .error p => .error p
    | .ok r =>
      match r.1.2.Err with
      | none => .ok ((r.1.1, none), r.2)
      | some e => .ok ((none, enhanceError (some e) r.1.2.StatusCode), r.2)

/-- A run of the retry policy that hands back, on failure, the very result of
the closure (a typed nil pointer) with the enhanced error. -/
def passThroughRetry {ρ σ : Type} : Retry ρ σ :=
  fun f w =>
    match f w with
    | .error p => .error p
    | .ok r => .ok ((r.1.1, enhanceError r.1.2.Err r.1.2.StatusCode), r.2)

/-- A state of a parse webhook that names a security policy. -/
def securedWebhookState : ResourceData :=
  { id := "parse.foo.bar",
    attrs := [("hostname", GoValue.str "parse.foo.bar"),
              ("url", GoValue.str "https://foo.bar/sendgrid/inbound"),
              ("send_raw", GoValue.bool true),
              ("webhook_security_policy_id", GoValue.str "policy-1")] }

/-- A state of a parse webhook that names no security policy. -/
def plainWebhookState : ResourceData :=
  { id := "parse.foo.bar",
    attrs := [("hostname", GoValue.str "parse.foo.bar"),
              ("url", GoValue.str "https://foo.bar/sendgrid/inbound")] }

/-- A server that accepts every call. -/
def acceptingServer : ParseWebhookServer :=
  { createReply := fun _ => (none, { StatusCode := 200, Err := none }),
    readReply := fun _ => (none, { StatusCode := 200, Err := none }),
    updateReply := fun _ => { StatusCode := 200, Err := none },
    deleteReply := fun _ => (true, { StatusCode := 200, Err := none }) }

/-- A server that refuses every update with status 403 and accepts the rest. -/
def refusingServer : ParseWebhookServer :=
  { createReply := fun _ => (none, { StatusCode := 200, Err := none }),
    readReply := fun _ => (none, { StatusCode := 200, Err := none }),
    updateReply := fun _ => { StatusCode := 403, Err := some (GoError.new "forbidden") },
    deleteReply := fun _ => (true, { StatusCode := 200, Err := none }) }

end Sendgrid

namespace Sendgrid

/-! ## Facts about `strings.Contains` -/

theorem stringsContains_iff (s substr : String) :
    stringsContains s substr = true ↔ substr.data <:+: s.data := by
  simp [stringsContains]

theorem stringsContains_append_right (a b : String) : stringsContains (a ++ b) b = true := by
  rw [stringsContains_iff, String.data_append]
  exact ⟨a.data, [], by simp⟩

theorem stringsContains_append_left (a b : String) : stringsContains (a ++ b) a = true := by
  rw [stringsContains_iff, String.data_append]
  exact ⟨[], b.data, by simp⟩

theorem stringsContains_of_left (a b x : String) (h : stringsContains a x = true) :
    stringsContains (a ++ b) x = true := by
  rw [stringsContains_iff, String.data_append] at *
  obtain ⟨p, q, hpq⟩ := h
  exact ⟨p, q ++ b.data, by simp [← hpq]⟩

theorem stringsContains_of_right (a b x : String) (h : stringsContains b x = true) :
    stringsContains (a ++ b) x = true := by
  rw [stringsContains_iff, String.data_append] at *
  obtain ⟨p, q, hpq⟩ := h
  exact ⟨a.data ++ p, q, by simp [← hpq]⟩

/-! ## Error taxonomy -/

/-- C4: for every error value and every status code, `enhanceError` returns nil
if and only if the error it is given is nil. -/
theorem enhanceError_nil_iff (err : Option GoError) (statusCode : Int) :
    enhanceError err statusCode = none ↔ err = none := by
  cases err <;> simp [enhanceError]

/-- C5: for every non-nil error and every status code, the message of the
enhanced error contains the original text and the phrase the status code
selects: the five enumerated codes, every 5xx code, and every other code. -/
theorem enhanceError_message (e : GoError) (statusCode : Int) :
    ∃ r, enhanceError (some e) statusCode = some r ∧
      stringsContains r.Error e.Error = true ∧
      (statusCode = 400 → stringsContains r.Error "bad request (HTTP 400)" = true) ∧
      (statusCode = 401 → stringsContains r.Error "unauthorized (HTTP 401)" = true) ∧
      (statusCode = 403 → stringsContains r.Error "forbidden (HTTP 403)" = true) ∧
      (statusCode = 404 → stringsContains r.Error "resource not found (HTTP 404)" = true) ∧
      (statusCode = 429 → stringsContains r.Error "rate limit exceeded (HTTP 429)" = true) ∧
      (500 ≤ statusCode ∧ statusCode ≤ 599 →
        stringsContains r.Error ("server error (HTTP " ++ toString statusCode ++ ")") = true) ∧
      (statusCode ≠ 400 ∧ statusCode ≠ 401 ∧ statusCode ≠ 403 ∧ statusCode ≠ 404 ∧
          statusCode ≠ 429 ∧ ¬ (500 ≤ statusCode ∧ statusCode ≤ 599) →
        stringsContains r.Error ("request failed with HTTP " ++ toString statusCode) = true) := by
  refine ⟨_, rfl, ?_, ?_, ?_, ?_, ?_, ?_, ?_, ?_⟩
  · exact stringsContains_append_right _ _
  · rintro rfl
    exact stringsContains_of_left _ _ _ (stringsContains_append_left _ _)
  · rintro rfl
    exact stringsContains_of_left _ _ _ (stringsContains_append_left _ _)
  · rintro rfl
    exact stringsContains_of_left _ _ _ (stringsContains_append_left _ _)
  · rintro rfl
    exact stringsContains_of_left _ _ _ (stringsContains_append_left _ _)
  · rintro rfl
    exact stringsContains_of_left _ _ _ (stringsContains_append_left _ _)
  · rintro ⟨h1, h2⟩
    have hp : statusPhrase statusCode = "server error (HTTP " ++ toString statusCode ++ ")" := by
      unfold statusPhrase
      rw [if_neg (by omega), if_neg (by omega), if_neg (by omega), if_neg (by omega),
        if_neg (by omega), if_pos ⟨h1, h2⟩]
    simp only [GoError.Error, hp]
    exact stringsContains_of_left _ _ _ (stringsContains_append_left _ _)
  · rintro ⟨h1, h2, h3, h4, h5, h6⟩
    have hp : statusPhrase statusCode = "request failed with HTTP " ++ toString statusCode := by
      unfold statusPhrase
      rw [if_neg h1, if_neg h2, if_neg h3, if_neg h4, if_neg h5, if_neg h6]
    simp only [GoError.Error, hp]
    exact stringsContains_of_left _ _ _ (stringsContains_append_left _ _)

/-- Witness of C5 at status 418 and at the error "some error". -/
theorem enhanceError_message_witness :
    ∃ r, enhanceError (some (GoError.new "some error")) 418 = some r ∧
      stringsContains r.Error "some error" = true ∧
      stringsContains r.Error "request failed with HTTP 418" = true := by
  obtain ⟨r, hr, htext, _, _, _, _, _, _, hother⟩ :=
    enhanceError_message (GoError.new "some error") 418
  exact ⟨r, hr, htext, hother (by decide)⟩

/-- C6: an error whose lower-cased text contains "scope" and also "invalid" or
"unassignable" is marked enhanced, and its message contains "invalid or
unassignable scopes" and the original text, whatever later rule it also matches. -/
theorem parseErrorDetails_scope (e : GoError)
    (hscope : stringsContains (stringsToLower e.Error) "scope" = true)
    (hkind : stringsContains (stringsToLower e.Error) "invalid" = true ∨
      stringsContains (stringsToLower e.Error) "unassignable" = true) :
    (parseErrorDetails (some e)).2 = true ∧
      stringsContains (parseErrorDetails (some e)).1 "invalid or unassignable scopes" = true ∧
      stringsContains (parseErrorDetails (some e)).1 e.Error = true := by
  have hcond : (stringsContains (stringsToLower e.Error) "scope" &&
      (stringsContains (stringsToLower e.Error) "invalid" ||
        stringsContains (stringsToLower e.Error) "unassignable")) = true := by
    rcases hkind with h | h <;> simp [hscope, h]
  have hval : parseErrorDetails (some e) = ("invalid or unassignable scopes: " ++ e.Error, true) := by
    simp only [parseErrorDetails, hcond, if_true]
  rw [hval]
  refine ⟨rfl, ?_, stringsContains_append_right _ _⟩
  exact stringsContains_of_left _ _ _ (by decide)

/-- Witness of C6 at a text that also matches the permission, not-found and
validation rules. -/
theorem parseErrorDetails_scope_witness :
    (parseErrorDetails (some (GoError.new "Permission not found: Invalid SCOPE"))).2 = true ∧
      stringsContains (parseErrorDetails (some (GoError.new "Permission not found: Invalid SCOPE"))).1
        "invalid or unassignable scopes" = true ∧
      stringsContains (parseErrorDetails (some (GoError.new "Permission not found: Invalid SCOPE"))).1
        (GoError.new "Permission not found: Invalid SCOPE").Error = true :=
  parseErrorDetails_scope (GoError.new "Permission not found: Invalid SCOPE")
    (by decide) (Or.inl (by decide))

/-- C7: an error whose text matches none of the four rules keeps its message and
is not marked enhanced, and an absent error is not marked enhanced. -/
theorem parseErrorDetails_unmatched :
    (∀ e : GoError,
      ¬ (stringsContains (stringsToLower e.Error) "scope" = true ∧
          (stringsContains (stringsToLower e.Error) "invalid" = true ∨
            stringsContains (stringsToLower e.Error) "unassignable" = true)) →
      ¬ (stringsContains (stringsToLower e.Error) "permission" = true ∨
          stringsContains (stringsToLower e.Error) "unauthorized" = true) →
      ¬ (stringsContains (stringsToLower e.Error) "not found" = true ∨
          stringsContains (stringsToLower e.Error) "404" = true) →
      ¬ (stringsContains (stringsToLower e.Error) "validation" = true ∨
          stringsContains (stringsToLower e.Error) "invalid" = true) →
      parseErrorDetails (some e) = (e.Error, false)) ∧
    (parseErrorDetails none).2 = false := by
  refine ⟨?_, rfl⟩
  intro e h1 h2 h3 h4
  have c1 : (stringsContains (stringsToLower e.Error) "scope" &&
      (stringsContains (stringsToLower e.Error) "invalid" ||
        stringsContains (stringsToLower e.Error) "unassignable")) = false := by
    rw [Bool.eq_false_iff]
    intro h
    simp only [Bool.and_eq_true, Bool.or_eq_true] at h
    exact h1 h
  have c2 : (stringsContains (stringsToLower e.Error) "permission" ||
      stringsContains (stringsToLower e.Error) "unauthorized") = false := by
    rw [Bool.eq_false_iff]
    intro h
    simp only [Bool.or_eq_true] at h
    exact h2 h
  have c3 : (stringsContains (stringsToLower e.Error) "not found" ||
      stringsContains (stringsToLower e.Error) "404") = false := by
    rw [Bool.eq_false_iff]
    intro h
    simp only [Bool.or_eq_true] at h
    exact h3 h
  have c4 : (stringsContains (stringsToLower e.Error) "validation" ||
      stringsContains (stringsToLower e.Error) "invalid") = false := by
    rw [Bool.eq_false_iff]
    intro h
    simp only [Bool.or_eq_true] at h
    exact h4 h
  simp only [parseErrorDetails, c1, c2, c3, c4]
  simp

/-- Witness of C7 at the error "something went wrong". -/
theorem parseErrorDetails_unmatched_witness :
    parseErrorDetails (some (GoError.new "something went wrong"))
      = ("something went wrong", false) :=
  parseErrorDetails_unmatched.1 (GoError.new "something went wrong")
    (by decide) (by decide) (by decide) (by decide)

/-! ## Opaque API error -/

/-- C8: `Detail` returns the string held by the "detail" entry of a keyed
structure that has one, the canonical rendering of a keyed structure without a
"detail" entry (for instance "map[code:123 error:some error]"), a plain string
unchanged, and "<nil>" for an absent payload. -/
theorem APIError_Detail_shapes :
    (∀ (kvs : List (String × GoValue)) (d : String),
      lookupField "detail" kvs = some (GoValue.str d) →
      (APIError.mk (GoValue.map kvs)).Detail = d) ∧
    (∀ kvs : List (String × GoValue), lookupField "detail" kvs = none →
      (APIError.mk (GoValue.map kvs)).Detail = (GoValue.map kvs).format) ∧
    (APIError.mk (GoValue.map [("error", GoValue.str "some error"),
      ("code", GoValue.int 123)])).Detail = "map[code:123 error:some error]" ∧
    (∀ t : String, (APIError.mk (GoValue.str t)).Detail = t) ∧
    (APIError.mk GoValue.nil).Detail = "<nil>" := by
  refine ⟨?_, ?_, by decide, ?_, ?_⟩
  · intro kvs d h
    simp only [APIError.Detail, h]
  · intro kvs h
    simp only [APIError.Detail, h]
  · intro t
    simp only [APIError.Detail, GoValue.format]
  · simp only [APIError.Detail, GoValue.format]

/-- Witness of C8 at the payload of the test "map with detail". -/
theorem APIError_Detail_shapes_witness :
    (APIError.mk (GoValue.map [("detail", GoValue.str "error detail")])).Detail
      = "error detail" :=
  APIError_Detail_shapes.1 [("detail", GoValue.str "error detail")] "error detail" rfl

/-- C9: `Empty` is true exactly for the absent payload; it is false for the
keyed structure with no entries and for every string, the empty one included. -/
theorem APIError_Empty_iff :
    (∀ e : APIError, e.Empty = true ↔ e.f = GoValue.nil) ∧
    (APIError.mk (GoValue.map [])).Empty = false ∧
    (∀ t : String, (APIError.mk (GoValue.str t)).Empty = false) ∧
    (APIError.mk (GoValue.str "")).Empty = false := by
  refine ⟨?_, rfl, fun _ => rfl, rfl⟩
  rintro ⟨f⟩
  cases f <;> simp [APIError.Empty]

/-! ## Retry policy -/

/-- C1: when the first call of the closure returns an error with a status code
other than 429, the policy returns after that single call, without sleeping,
with a nil result and a non-nil error whose message contains the message of
the underlying error. -/
theorem RetryOnRateLimit_nonRetryable {ρ σ : Type} (policy : RetryPolicy) (ctx : RetryContext)
    (op : σ → Attempt ρ σ) (fuel now : Nat) (s : σ) (e : GoError)
    (herr : (op s).reqErr.Err = some e) (hcode : (op s).reqErr.StatusCode ≠ 429) :
    ∃ out, RetryOnRateLimit policy ctx op (fuel + 1) now s = some out ∧
      out.attempts = [{ started := now, reqErr := (op s).reqErr }] ∧
      out.final = (op s).next ∧ out.slept = 0 ∧ out.result = none ∧
      ∃ r, out.err = some r ∧ stringsContains r.Error e.Error = true := by
  simp only [RetryOnRateLimit, retryLoop, herr, if_neg hcode]
  refine ⟨_, rfl, by simp, rfl, rfl, rfl, _, rfl, ?_⟩
  exact stringsContains_append_right _ _

/-- Success is the only way for the attempt loop to return a nil error, and the
attempt that succeeded is the last one of the log. -/
theorem retryLoop_nil_error {ρ σ : Type} (policy : RetryPolicy) (ctx : RetryContext)
    (op : σ → Attempt ρ σ) :
    ∀ (fuel : Nat) (s : σ) (now : Nat) (log : List AttemptRecord) (slept : Nat)
      (out : RetryOutcome ρ σ),
      retryLoop policy ctx op fuel s now log slept = some out → out.err = none →
      ∃ last, out.attempts.getLast? = some last ∧ last.reqErr.Err = none := by
  intro fuel
  induction fuel with
  | zero => intro s now log slept out h; simp [retryLoop] at h
  | succ fuel ih =>
    intro s now log slept out h hnil
    simp only [retryLoop] at h
    cases herr : (op s).reqErr.Err with
    | none =>
      simp only [herr, Option.some.injEq] at h
      subst h
      exact ⟨{ started := now, reqErr := (op s).reqErr }, by simp, herr⟩
    | some e =>
      simp only [herr] at h
      by_cases hc : (op s).reqErr.StatusCode = 429
      · simp only [hc, if_true] at h
        by_cases hd : ctx.deadline ≤ now + (op s).elapsed
        · simp only [if_pos hd, Option.some.injEq] at h
          subst h
          simp [enhanceError] at hnil
        · simp only [if_neg hd] at h
          split at h
          · simp only [Option.some.injEq] at h
            subst h
            simp at hnil
          · exact ih _ _ _ _ out h hnil
      · simp only [if_neg hc, Option.some.injEq] at h
        subst h
        simp [enhanceError] at hnil

/-- C2: when the first call of the closure returns no error, whatever its status
code, the policy returns that call's result with a nil error after that single
call and without sleeping; and whenever the policy returns a nil error, the last
attempt returned no error. -/
theorem RetryOnRateLimit_success {ρ σ : Type} (policy : RetryPolicy) (ctx : RetryContext)
    (op : σ → Attempt ρ σ) (now : Nat) (s : σ) :
    ((op s).reqErr.Err = none → ∀ fuel, ∃ out,
      RetryOnRateLimit policy ctx op (fuel + 1) now s = some out ∧
      out.result = (op s).result ∧ out.err = none ∧
      out.attempts = [{ started := now, reqErr := (op s).reqErr }] ∧
      out.final = (op s).next ∧ out.slept = 0 ∧ out.clock = now + (op s).elapsed) ∧
    (∀ fuel out, RetryOnRateLimit policy ctx op fuel now s = some out → out.err = none →
      ∃ last, out.attempts.getLast? = some last ∧ last.reqErr.Err = none) := by
  refine ⟨?_, ?_⟩
  · intro herr fuel
    simp only [RetryOnRateLimit, retryLoop, herr]
    exact ⟨_, rfl, rfl, rfl, by simp, rfl, rfl, rfl⟩
  · intro fuel out h hnil
    exact retryLoop_nil_error policy ctx op fuel s now [] 0 out h hnil

/-- A closure that is rate limited on every call stays so after its first call. -/
theorem AlwaysRateLimited_next {ρ σ : Type} (op : σ → Attempt ρ σ) (s : σ)
    (h : AlwaysRateLimited op s) : AlwaysRateLimited op (op s).next :=
  fun n => h (n + 1)

/-- The attempt loop on a closure that is rate limited on every call: with fuel
above the time left it returns a non-nil error and a nil result, every retry
starts no later than the deadline, the time slept is at most the time left, and
a retry happens exactly when time remains after the first attempt and the
context is not cancelled before the first wait ends. -/
theorem retryLoop_rateLimited {ρ σ : Type} (policy : RetryPolicy) (ctx : RetryContext)
    (op : σ → Attempt ρ σ) :
    ∀ (fuel : Nat) (s : σ) (now : Nat) (log : List AttemptRecord) (slept : Nat),
      AlwaysRateLimited op s → ctx.deadline - now < fuel →
      ∃ out rest, retryLoop policy ctx op fuel s now log slept = some out ∧
        out.err ≠ none ∧ out.result = none ∧
        out.attempts = log ++ { started := now, reqErr := (op s).reqErr } :: rest ∧
        (∀ r ∈ rest, r.started ≤ ctx.deadline) ∧
        out.slept ≤ slept + (ctx.deadline - now) ∧
        (rest ≠ [] ↔ (now + (op s).elapsed < ctx.deadline ∧
          cancelledBefore ctx.cancelAt (now + (op s).elapsed +
            min (policy.backoff log.length) (ctx.deadline - (now + (op s).elapsed))) = false)) := by
  intro fuel
  induction fuel with
  | zero => intro s now log slept _ hfuel; omega
  | succ fuel ih =>
    intro s now log slept hal hfuel
    obtain ⟨hc, hne⟩ := hal 0
    simp only [callState] at hc hne
    obtain ⟨e, herr⟩ := Option.ne_none_iff_exists'.mp hne
    simp only [retryLoop, herr, hc, if_true]
    by_cases hd : ctx.deadline ≤ now + (op s).elapsed
    · rw [if_pos hd]
      refine ⟨_, [], rfl, by simp [enhanceError], rfl, rfl, by simp, by simp, ?_⟩
      simp only [ne_eq, not_true_eq_false, false_iff, not_and]
      intro hlt
      omega
    · rw [if_neg hd]
      have hpos := policy.backoff_pos log.length
      by_cases hcan : cancelledBefore ctx.cancelAt (now + (op s).elapsed +
          min (policy.backoff log.length) (ctx.deadline - (now + (op s).elapsed))) = true
      · rw [if_pos hcan]
        refine ⟨_, [], rfl, by simp, rfl, rfl, by simp, ?_, ?_⟩
        · show slept + (abortInstant ctx.cancelAt (now + (op s).elapsed)
            - (now + (op s).elapsed)) ≤ slept + (ctx.deadline - now)
          cases hca : ctx.cancelAt with
          | none => simp [abortInstant]
          | some c =>
            simp only [cancelledBefore, hca, decide_eq_true_eq] at hcan
            simp only [abortInstant]
            omega
        · simp [hcan]
      · rw [if_neg hcan]
        obtain ⟨out, rest, hrun, hoerr, hres, hatt, hall, hslept, _⟩ :=
          ih (op s).next
            (now + (op s).elapsed +
              min (policy.backoff log.length) (ctx.deadline - (now + (op s).elapsed)))
            (log ++ [{ started := now, reqErr := (op s).reqErr }])
            (slept + min (policy.backoff log.length) (ctx.deadline - (now + (op s).elapsed)))
            (AlwaysRateLimited_next op s hal) (by omega)
        refine ⟨out,
          { started := now + (op s).elapsed +
              min (policy.backoff log.length) (ctx.deadline - (now + (op s).elapsed)),
            reqErr := (op (op s).next).reqErr } :: rest,
          hrun, hoerr, hres, by simp [hatt], ?_, by omega, ?_⟩
        · intro r hr
          rcases List.mem_cons.mp hr with rfl | hr
          · show now + (op s).elapsed +
              min (policy.backoff log.length) (ctx.deadline - (now + (op s).elapsed))
                ≤ ctx.deadline
            omega
          · exact hall r hr
        · simp only [ne_eq, reduceCtorEq, not_false_eq_true, true_iff]
          exact ⟨by omega, by simpa using hcan⟩

/-- C3 (as amended): on a closure that is rate limited on every call, with fuel
above the time left to the deadline, the policy returns a non-nil error and a
nil result after at least one call; every retry starts no later than the
deadline and the time slept is at most the time left; and the closure is called
more than once exactly when the deadline lies after the end of the first
attempt and the context is not cancelled before the first wait ends. -/
theorem RetryOnRateLimit_rateLimited {ρ σ : Type} (policy : RetryPolicy) (ctx : RetryContext)
    (op : σ → Attempt ρ σ) (fuel now : Nat) (s : σ)
    (hal : AlwaysRateLimited op s) (hfuel : ctx.deadline - now < fuel) :
    ∃ out, RetryOnRateLimit policy ctx op fuel now s = some out ∧
      out.err ≠ none ∧ out.result = none ∧
      1 ≤ out.attempts.length ∧
      (∀ r ∈ out.attempts.tail, r.started ≤ ctx.deadline) ∧
      out.slept ≤ ctx.deadline - now ∧
      (1 < out.attempts.length ↔ (now + (op s).elapsed < ctx.deadline ∧
        cancelledBefore ctx.cancelAt (now + (op s).elapsed +
          min (policy.backoff 0) (ctx.deadline - (now + (op s).elapsed))) = false)) := by
  obtain ⟨out, rest, hrun, hoerr, hres, hatt, hall, hslept, hiff⟩ :=
    retryLoop_rateLimited policy ctx op fuel s now [] 0 hal hfuel
  refine ⟨out, hrun, hoerr, hres, by simp [hatt], by simpa [hatt] using hall,
    by simpa using hslept, ?_⟩
  simp only [List.length_nil] at hiff
  rw [← hiff, hatt]
  cases rest <;> simp

/-- The scenario closure `rateLimitedOp` is rate limited on every call. -/
theorem rateLimitedOp_always : AlwaysRateLimited rateLimitedOp () :=
  fun _ => ⟨rfl, by simp [rateLimitedOp]⟩

/-- Witness of C1 at the closure of the test "non-retryable error". -/
theorem RetryOnRateLimit_nonRetryable_witness :
    ∃ out, RetryOnRateLimit constantBackoff (uncancelled 1200) badRequestOp 1 0 () = some out ∧
      out.attempts = [{ started := 0, reqErr := (badRequestOp ()).reqErr }] ∧
      out.final = (badRequestOp ()).next ∧ out.slept = 0 ∧ out.result = none ∧
      ∃ r, out.err = some r ∧
        stringsContains r.Error (GoError.new "bad request").Error = true :=
  RetryOnRateLimit_nonRetryable constantBackoff (uncancelled 1200) badRequestOp 0 0 ()
    (GoError.new "bad request") rfl (by decide)

/-- Witness of C2 at the closure of the test "successful operation". -/
theorem RetryOnRateLimit_success_witness :
    ∃ out, RetryOnRateLimit constantBackoff (uncancelled 1200) successOp 1 0 () = some out ∧
      out.result = some "success" ∧ out.err = none ∧
      out.attempts = [{ started := 0, reqErr := (successOp ()).reqErr }] ∧
      out.final = () ∧ out.slept = 0 ∧ out.clock = 0 + 1 :=
  (RetryOnRateLimit_success constantBackoff (uncancelled 1200) successOp 0 ()).1 rfl 0

/-- Witness of C3 (as amended) with the deadline at instant 3: the closure is
called more than once. -/
theorem RetryOnRateLimit_rateLimited_witness :
    ∃ out, RetryOnRateLimit constantBackoff (uncancelled 3) rateLimitedOp 4 0 () = some out ∧
      out.err ≠ none ∧ 1 < out.attempts.length ∧ out.slept ≤ 3 := by
  obtain ⟨out, hrun, herr, _, _, _, hslept, hiff⟩ :=
    RetryOnRateLimit_rateLimited constantBackoff (uncancelled 3) rateLimitedOp 4 0 ()
      rateLimitedOp_always (by decide)
  exact ⟨out, hrun, herr, hiff.mpr ⟨by decide, by decide⟩, hslept⟩

/-- Counterexample to C3 as stated: with the deadline at instant 1 and a first
call that ends at instant 1, a closure that is rate limited on every call is
called exactly once, so no run calls it more than once. -/
theorem RetryOnRateLimit_rateLimited_single_call :
    (RetryOnRateLimit constantBackoff (uncancelled 1) rateLimitedOp 5 0 ()).map
        (fun out => (out.attempts.length, out.err.isSome)) = some (1, true) ∧
    ¬ (∀ (policy : RetryPolicy) (ctx : RetryContext) (op : Unit → Attempt String Unit)
        (now : Nat) (s : Unit), AlwaysRateLimited op s →
        ∃ fuel out, RetryOnRateLimit policy ctx op fuel now s = some out ∧
          out.err ≠ none ∧ 1 < out.attempts.length) := by
  refine ⟨by decide, ?_⟩
  intro h
  obtain ⟨fuel, out, hrun, _, hlen⟩ :=
    h constantBackoff (uncancelled 1) rateLimitedOp 0 () rateLimitedOp_always
  cases fuel with
  | zero => simp [RetryOnRateLimit, retryLoop] at hrun
  | succ fuel =>
    simp only [RetryOnRateLimit, retryLoop, rateLimitedOp, uncancelled] at hrun
    simp at hrun
    subst hrun
    simp at hlen

/-! ## Webhook security policy client -/

/-- The status code `ReadWebhookSecurityPolicy` returns is 200 or 500, whatever
the transport answers. -/
theorem ReadWebhookSecurityPolicy_status {σ : Type} (c : Client σ) (policyId : String) (w : σ) :
    (ReadWebhookSecurityPolicy c policyId w).1.2.StatusCode = 200 ∨
      (ReadWebhookSecurityPolicy c policyId w).1.2.StatusCode = 500 := by
  unfold ReadWebhookSecurityPolicy
  split
  · right; rfl
  · dsimp only
    split
    · right; rfl
    · unfold parseSecurityPolicyResponse
      split
      · right; rfl
      · left; rfl

/-- C10 (evaluation at the failing input): reading policy "policy-1" from a
server that answers 404 returns the zero response with status 200 and no error;
and for every client, id and world the returned status code is never 404. -/
theorem ReadWebhookSecurityPolicy_not_found_status :
    (ReadWebhookSecurityPolicy goneServer "policy-1" ()).1
        = (some zeroResponse, { StatusCode := 200, Err := none }) ∧
    ((goneServer.Get "GET" "/user/webhooks/security/policies/policy-1" ()).1.statusCode = 404) ∧
    (∀ (σ : Type) (c : Client σ) (policyId : String) (w : σ),
      (ReadWebhookSecurityPolicy c policyId w).1.2.StatusCode ≠ 404) := by
  refine ⟨by decide, by decide, ?_⟩
  intro σ c policyId w
  rcases ReadWebhookSecurityPolicy_status c policyId w with h | h <;> rw [h] <;> decide

/-- An error is itself in the sense of `errors.Is`. -/
theorem GoError.Is_self (e : GoError) : e.Is e = true := by
  cases e <;> simp [GoError.Is]

/-- An error made with `%w` wraps its cause in the sense of `errors.Is`. -/
theorem GoError.Is_wrap (msg : String) (e : GoError) : (GoError.wrap msg e).Is e = true := by
  simp [GoError.Is, GoError.Is_self]

/-- C11: with an empty name, `CreateWebhookSecurityPolicy` returns a nil response
and `UpdateWebhookSecurityPolicy` (given a non-empty id) returns, for every
oauth and signature argument and every client, a `RequestError` whose `Err` is
the sentinel `ErrNameRequired`, and the world is left as it was: no request
was issued. -/
theorem name_required {σ : Type} (c : Client σ) (policyId : String)
    (oauth signature : List (String × GoValue)) (w : σ) (hid : policyId ≠ "") :
    CreateWebhookSecurityPolicy c "" oauth signature w
        = .ok ((none, { StatusCode := 500, Err := some ErrNameRequired }), w) ∧
    UpdateWebhookSecurityPolicy c policyId "" oauth signature w
        = .ok ({ StatusCode := 500, Err := some ErrNameRequired }, w) := by
  refine ⟨?_, ?_⟩
  · simp [CreateWebhookSecurityPolicy, StatusInternalServerError]
  · simp [UpdateWebhookSecurityPolicy, hid, StatusInternalServerError]

/-- Witness of C11 on a server that counts its requests, with an oauth map that
would make the request construction panic: the count stays 0. -/
theorem name_required_witness :
    CreateWebhookSecurityPolicy (countingServer found) "" [("client_id", GoValue.int 3)] [] 0
        = .ok ((none, { StatusCode := 500, Err := some ErrNameRequired }), 0) ∧
    UpdateWebhookSecurityPolicy (countingServer found) "policy-1" ""
        [("client_id", GoValue.int 3)] [] 0
        = .ok ({ StatusCode := 500, Err := some ErrNameRequired }, 0) :=
  name_required (countingServer found) "policy-1" [("client_id", GoValue.int 3)] [] 0
    (by decide)

/-- C12: with an empty policy id, `ReadWebhookSecurityPolicy` (nil response),
`UpdateWebhookSecurityPolicy` and `DeleteWebhookSecurityPolicy` (false) return
the sentinel `ErrWebhookSecurityPolicyIdRequired` and leave the world as it
was; for the update the id check comes first, so an empty id with an empty
name yields the id sentinel, which is not `ErrNameRequired`. -/
theorem policy_id_required {σ : Type} (c : Client σ) (name : String)
    (oauth signature : List (String × GoValue)) (w : σ) :
    ReadWebhookSecurityPolicy c "" w
        = ((none, { StatusCode := 500, Err := some ErrWebhookSecurityPolicyIdRequired }), w) ∧
    UpdateWebhookSecurityPolicy c "" name oauth signature w
        = .ok ({ StatusCode := 500, Err := some ErrWebhookSecurityPolicyIdRequired }, w) ∧
    DeleteWebhookSecurityPolicy c "" w
        = ((false, { StatusCode := 500, Err := some ErrWebhookSecurityPolicyIdRequired }), w) ∧
    UpdateWebhookSecurityPolicy c "" "" oauth signature w
        = .ok ({ StatusCode := 500, Err := some ErrWebhookSecurityPolicyIdRequired }, w) ∧
    ErrWebhookSecurityPolicyIdRequired ≠ ErrNameRequired := by
  refine ⟨?_, ?_, ?_, ?_, by decide⟩
  · simp [ReadWebhookSecurityPolicy, StatusInternalServerError]
  · simp [UpdateWebhookSecurityPolicy, StatusInternalServerError]
  · simp [DeleteWebhookSecurityPolicy, StatusInternalServerError]
  · simp [UpdateWebhookSecurityPolicy, StatusInternalServerError]

/-! ### What each call returns once its request has been issued -/

theorem Create_transport_error {σ : Type} (c : Client σ) (name : String)
    (oauth signature : List (String × GoValue)) (w : σ) (request : WebhookSecurityPolicyRequest)
    (e : GoError) (hname : name ≠ "") (hreq : buildRequest name oauth signature = .ok request)
    (herr : (createReply c request w).err = some e) :
    CreateWebhookSecurityPolicy c name oauth signature w
      = .ok ((none, { StatusCode := 500,
                      Err := some (GoError.wrap
                        ("failed creating webhook security policy: " ++ e.Error) e) }),
             (c.Post "POST" "/user/webhooks/security/policies" request w).2) := by
  unfold createReply at herr
  simp only [CreateWebhookSecurityPolicy, if_neg hname, hreq, herr, StatusInternalServerError]

theorem Create_status_error {σ : Type} (c : Client σ) (name : String)
    (oauth signature : List (String × GoValue)) (w : σ) (request : WebhookSecurityPolicyRequest)
    (hname : name ≠ "") (hreq : buildRequest name oauth signature = .ok request)
    (herr : (createReply c request w).err = none)
    (hs : 300 ≤ (createReply c request w).statusCode) :
    CreateWebhookSecurityPolicy c name oauth signature w
      = .ok ((none, { StatusCode := (createReply c request w).statusCode,
                      Err := some (GoError.wrap
                        (ErrFailedCreatingParseWebhook.Error ++ ", status: " ++
                          toString (createReply c request w).statusCode ++ ", response: " ++
                          (createReply c request w).body)
                        ErrFailedCreatingParseWebhook) }),
             (c.Post "POST" "/user/webhooks/security/policies" request w).2) := by
  unfold createReply at herr hs ⊢
  have hs' : (c.Post "POST" "/user/webhooks/security/policies" request w).1.statusCode
      ≥ StatusMultipleChoices := hs
  simp only [CreateWebhookSecurityPolicy, if_neg hname, hreq, herr, if_pos hs']

theorem Create_decoded {σ : Type} (c : Client σ) (name : String)
    (oauth signature : List (String × GoValue)) (w : σ) (request : WebhookSecurityPolicyRequest)
    (hname : name ≠ "") (hreq : buildRequest name oauth signature = .ok request)
    (herr : (createReply c request w).err = none)
    (hs : (createReply c request w).statusCode < 300) :
    CreateWebhookSecurityPolicy c name oauth signature w
      = .ok (parseSecurityPolicyResponse c.jsonUnmarshal (createReply c request w).body,
             (c.Post "POST" "/user/webhooks/security/policies" request w).2) := by
  unfold createReply at herr hs ⊢
  have hs' : ¬ (c.Post "POST" "/user/webhooks/security/policies" request w).1.statusCode
      ≥ StatusMultipleChoices := by
    simpa [StatusMultipleChoices] using hs
  simp only [CreateWebhookSecurityPolicy, if_neg hname, hreq, herr, if_neg hs']

theorem Update_transport_error {σ : Type} (c : Client σ) (policyId name : String)
    (oauth signature : List (String × GoValue)) (w : σ) (request : WebhookSecurityPolicyRequest)
    (e : GoError) (hid : policyId ≠ "") (hname : name ≠ "")
    (hreq : buildRequest name oauth signature = .ok request)
    (herr : (updateReply c policyId request w).err = some e) :
    UpdateWebhookSecurityPolicy c policyId name oauth signature w
      = .ok ({ StatusCode := 500,
               Err := some (GoError.wrap
                 ("failed updating webhook security policy: " ++ e.Error) e) },
             (c.Post "PATCH" ("/user/webhooks/security/policies/" ++ policyId) request w).2) := by
  unfold updateReply at herr
  simp only [UpdateWebhookSecurityPolicy, if_neg hid, if_neg hname, hreq, herr,
    StatusInternalServerError]

theorem Update_status_error {σ : Type} (c : Client σ) (policyId name : String)
    (oauth signature : List (String × GoValue)) (w : σ) (request : WebhookSecurityPolicyRequest)
    (hid : policyId ≠ "") (hname : name ≠ "")
    (hreq : buildRequest name oauth signature = .ok request)
    (herr : (updateReply c policyId request w).err = none)
    (hs : 300 ≤ (updateReply c policyId request w).statusCode) :
    UpdateWebhookSecurityPolicy c policyId name oauth signature w
      = .ok ({ StatusCode := (updateReply c policyId request w).statusCode,
               Err := some (GoError.new
                 ("failed updating webhook security policy, status: " ++
                   toString (updateReply c policyId request w).statusCode)) },
             (c.Post "PATCH" ("/user/webhooks/security/policies/" ++ policyId) request w).2) := by
  unfold updateReply at herr hs ⊢
  have hs' : (c.Post "PATCH" ("/user/webhooks/security/policies/" ++ policyId) request
      w).1.statusCode ≥ StatusMultipleChoices := hs
  simp only [UpdateWebhookSecurityPolicy, if_neg hid, if_neg hname, hreq, herr, if_pos hs']

theorem Update_done {σ : Type} (c : Client σ) (policyId name : String)
    (oauth signature : List (String × GoValue)) (w : σ) (request : WebhookSecurityPolicyRequest)
    (hid : policyId ≠ "") (hname : name ≠ "")
    (hreq : buildRequest name oauth signature = .ok request)
    (herr : (updateReply c policyId request w).err = none)
    (hs : (updateReply c policyId request w).statusCode < 300) :
    UpdateWebhookSecurityPolicy c policyId name oauth signature w
      = .ok ({ StatusCode := 200, Err := none },
             (c.Post "PATCH" ("/user/webhooks/security/policies/" ++ policyId) request w).2) := by
  unfold updateReply at herr hs
  have hs' : ¬ (c.Post "PATCH" ("/user/webhooks/security/policies/" ++ policyId) request
      w).1.statusCode ≥ StatusMultipleChoices := by
    simpa [StatusMultipleChoices] using hs
  simp only [UpdateWebhookSecurityPolicy, if_neg hid, if_neg hname, hreq, herr, if_neg hs',
    StatusOK]

theorem Delete_transport_error {σ : Type} (c : Client σ) (policyId : String) (w : σ)
    (e : GoError) (hid : policyId ≠ "") (herr : (deleteReply c policyId w).err = some e) :
    DeleteWebhookSecurityPolicy c policyId w
      = ((false, { StatusCode := 500, Err := some e }),
         (c.Get "DELETE" ("/user/webhooks/security/policies/" ++ policyId) w).2) := by
  unfold deleteReply at herr
  simp only [DeleteWebhookSecurityPolicy, if_neg hid, herr, StatusInternalServerError]

theorem Delete_status_error {σ : Type} (c : Client σ) (policyId : String) (w : σ)
    (hid : policyId ≠ "") (herr : (deleteReply c policyId w).err = none)
    (hs : 300 ≤ (deleteReply c policyId w).statusCode)
    (hnf : (deleteReply c policyId w).statusCode ≠ 404) :
    DeleteWebhookSecurityPolicy c policyId w
      = ((false, { StatusCode := (deleteReply c policyId w).statusCode,
                   Err := some (GoError.wrap
                     (ErrFailedDeletingWebhookSecurityPolicy.Error ++ ", status: " ++
                       toString (deleteReply c policyId w).statusCode ++ ", response: " ++
                       (deleteReply c policyId w).body)
                     ErrFailedDeletingWebhookSecurityPolicy) }),
         (c.Get "DELETE" ("/user/webhooks/security/policies/" ++ policyId) w).2) := by
  unfold deleteReply at herr hs hnf ⊢
  have hs' : (c.Get "DELETE" ("/user/webhooks/security/policies/" ++ policyId) w).1.statusCode
        ≥ StatusMultipleChoices ∧
      (c.Get "DELETE" ("/user/webhooks/security/policies/" ++ policyId) w).1.statusCode
        ≠ StatusNotFound := ⟨hs, hnf⟩
  simp only [DeleteWebhookSecurityPolicy, if_neg hid, herr, if_pos hs']

theorem Delete_done {σ : Type} (c : Client σ) (policyId : String) (w : σ)
    (hid : policyId ≠ "") (herr : (deleteReply c policyId w).err = none)
    (hs : (deleteReply c policyId w).statusCode < 300 ∨
      (deleteReply c policyId w).statusCode = 404) :
    DeleteWebhookSecurityPolicy c policyId w
      = ((true, { StatusCode := 200, Err := none }),
         (c.Get "DELETE" ("/user/webhooks/security/policies/" ++ policyId) w).2) := by
  unfold deleteReply at herr hs
  have hs' : ¬ ((c.Get "DELETE" ("/user/webhooks/security/policies/" ++ policyId)
        w).1.statusCode ≥ StatusMultipleChoices ∧
      (c.Get "DELETE" ("/user/webhooks/security/policies/" ++ policyId) w).1.statusCode
        ≠ StatusNotFound) := by
    simp only [StatusMultipleChoices, StatusNotFound]
    omega
  simp only [DeleteWebhookSecurityPolicy, if_neg hid, herr, if_neg hs', StatusOK]

theorem Read_transport_error {σ : Type} (c : Client σ) (policyId : String) (w : σ)
    (e : GoError) (hid : policyId ≠ "") (herr : (readReply c policyId w).err = some e) :
    ReadWebhookSecurityPolicy c policyId w
      = ((none, { StatusCode := 500, Err := some e }),
         (c.Get "GET" ("/user/webhooks/security/policies/" ++ policyId) w).2) := by
  unfold readReply at herr
  simp only [ReadWebhookSecurityPolicy, if_neg hid, herr, StatusInternalServerError]

theorem Read_decoded {σ : Type} (c : Client σ) (policyId : String) (w : σ)
    (hid : policyId ≠ "") (herr : (readReply c policyId w).err = none) :
    ReadWebhookSecurityPolicy c policyId w
      = (parseSecurityPolicyResponse c.jsonUnmarshal (readReply c policyId w).body,
         (c.Get "GET" ("/user/webhooks/security/policies/" ++ policyId) w).2) := by
  unfold readReply at herr ⊢
  simp only [ReadWebhookSecurityPolicy, if_neg hid, herr]

/-- The decoder of responses returns a response exactly when it returns no
error, with status 200 on success and 500 on failure. -/
theorem parseSecurityPolicyResponse_shape
    (jsonUnmarshal : String → Except GoError WebhookSecurityPolicyResponse) (respBody : String) :
    ((parseSecurityPolicyResponse jsonUnmarshal respBody).1.isSome = true ↔
      (parseSecurityPolicyResponse jsonUnmarshal respBody).2.Err = none) ∧
    ((parseSecurityPolicyResponse jsonUnmarshal respBody).2.Err = none →
      (parseSecurityPolicyResponse jsonUnmarshal respBody).2.StatusCode = 200) ∧
    (∀ err, jsonUnmarshal respBody = .error err →
      (parseSecurityPolicyResponse jsonUnmarshal respBody).2.StatusCode = 500 ∧
      (parseSecurityPolicyResponse jsonUnmarshal respBody).2.Err ≠ none ∧
      (parseSecurityPolicyResponse jsonUnmarshal respBody).1 = none) := by
  unfold parseSecurityPolicyResponse
  cases h : jsonUnmarshal respBody <;> simp [StatusOK, StatusInternalServerError]

/-! ### Status codes and errors of the client calls -/

/-- C13: once the request is issued (ids and name not empty, request built),
a reply without transport error and with status `s ≥ 300` makes Create and
Update return `StatusCode = s` with `Err` present, and Delete too unless
`s = 404`; and `Err` is absent only when the transport reported no error and
the status was below 300 (or 404 for Delete). -/
theorem status_propagated {σ : Type} (c : Client σ) (policyId name : String)
    (oauth signature : List (String × GoValue)) (w : σ) (request : WebhookSecurityPolicyRequest)
    (hid : policyId ≠ "") (hname : name ≠ "")
    (hreq : buildRequest name oauth signature = .ok request) :
    (∃ resp rerr w1, CreateWebhookSecurityPolicy c name oauth signature w
        = .ok ((resp, rerr), w1) ∧
      ((createReply c request w).err = none → 300 ≤ (createReply c request w).statusCode →
        rerr.StatusCode = (createReply c request w).statusCode ∧ rerr.Err ≠ none) ∧
      (rerr.Err = none →
        (createReply c request w).err = none ∧ (createReply c request w).statusCode < 300)) ∧
    (∃ rerr w1, UpdateWebhookSecurityPolicy c policyId name oauth signature w
        = .ok (rerr, w1) ∧
      ((updateReply c policyId request w).err = none →
        300 ≤ (updateReply c policyId request w).statusCode →
        rerr.StatusCode = (updateReply c policyId request w).statusCode ∧ rerr.Err ≠ none) ∧
      (rerr.Err = none → (updateReply c policyId request w).err = none ∧
        (updateReply c policyId request w).statusCode < 300)) ∧
    (∃ ok rerr w1, DeleteWebhookSecurityPolicy c policyId w = ((ok, rerr), w1) ∧
      ((deleteReply c policyId w).err = none → 300 ≤ (deleteReply c policyId w).statusCode →
        (deleteReply c policyId w).statusCode ≠ 404 →
        rerr.StatusCode = (deleteReply c policyId w).statusCode ∧ rerr.Err ≠ none) ∧
      (rerr.Err = none → (deleteReply c policyId w).err = none ∧
        ((deleteReply c policyId w).statusCode < 300 ∨
          (deleteReply c policyId w).statusCode = 404))) := by
  refine ⟨?_, ?_, ?_⟩
  · cases herr : (createReply c request w).err with
    | some e =>
      exact ⟨_, _, _, Create_transport_error c name oauth signature w request e hname hreq herr,
        by simp, by simp⟩
    | none =>
      by_cases hs : 300 ≤ (createReply c request w).statusCode
      · exact ⟨_, _, _, Create_status_error c name oauth signature w request hname hreq herr hs,
          fun _ _ => ⟨rfl, by simp⟩, by simp⟩
      · exact ⟨_, _, _,
          Create_decoded c name oauth signature w request hname hreq herr (by omega),
          fun _ h => absurd h hs, fun _ => ⟨rfl, by omega⟩⟩
  · cases herr : (updateReply c policyId request w).err with
    | some e =>
      exact ⟨_, _, Update_transport_error c policyId name oauth signature w request e hid hname
        hreq herr, by simp, by simp⟩
    | none =>
      by_cases hs : 300 ≤ (updateReply c policyId request w).statusCode
      · exact ⟨_, _, Update_status_error c policyId name oauth signature w request hid hname
          hreq herr hs, fun _ _ => ⟨rfl, by simp⟩, by simp⟩
      · exact ⟨_, _, Update_done c policyId name oauth signature w request hid hname hreq herr
          (by omega), fun _ h => absurd h hs, fun _ => ⟨rfl, by omega⟩⟩
  · cases herr : (deleteReply c policyId w).err with
    | some e =>
      exact ⟨_, _, _, Delete_transport_error c policyId w e hid herr, by simp, by simp⟩
    | none =>
      by_cases hs : 300 ≤ (deleteReply c policyId w).statusCode ∧
          (deleteReply c policyId w).statusCode ≠ 404
      · exact ⟨_, _, _, Delete_status_error c policyId w hid herr hs.1 hs.2,
          fun _ _ _ => ⟨rfl, by simp⟩, by simp⟩
      · have hs' : (deleteReply c policyId w).statusCode < 300 ∨
            (deleteReply c policyId w).statusCode = 404 := by omega
        exact ⟨_, _, _, Delete_done c policyId w hid herr hs',
          fun _ h1 h2 => absurd ⟨h1, h2⟩ hs, fun _ => ⟨rfl, hs'⟩⟩

/-- Witness of C13 on a rate-limiting server: the three calls return status 429
with an error present. -/
theorem status_propagated_witness :
    (∃ resp rerr w1, CreateWebhookSecurityPolicy (countingServer tooManyRequests) "sample" [] [] 0
        = .ok ((resp, rerr), w1) ∧ rerr.StatusCode = 429 ∧ rerr.Err ≠ none) ∧
    (∃ rerr w1, UpdateWebhookSecurityPolicy (countingServer tooManyRequests) "policy-1" "sample"
        [] [] 0 = .ok (rerr, w1) ∧ rerr.StatusCode = 429 ∧ rerr.Err ≠ none) ∧
    (∃ ok rerr w1, DeleteWebhookSecurityPolicy (countingServer tooManyRequests) "policy-1" 0
        = ((ok, rerr), w1) ∧ rerr.StatusCode = 429 ∧ rerr.Err ≠ none) := by
  obtain ⟨⟨resp, rerr, w1, h1, h2, _⟩, ⟨rerr', w1', h1', h2', _⟩, ⟨ok, rerr'', w1'', h1'', h2'', _⟩⟩ :=
    status_propagated (countingServer tooManyRequests) "policy-1" "sample" [] [] 0
      { Name := "sample", OAuth := none, Signature := none }
      (by decide) (by decide) rfl
  exact ⟨⟨resp, rerr, w1, h1, h2 rfl (by decide)⟩, ⟨rerr', w1', h1', h2' rfl (by decide)⟩,
    ⟨ok, rerr'', w1'', h1'', h2'' rfl (by decide) (by decide)⟩⟩

/-- C14: once the request is issued, a transport error `e`, whatever status code
comes with it, makes each of Create, Read, Update and Delete return status 500,
which is not 429, with an `Err` that is `e` or wraps `e`. -/
theorem transport_error_final {σ : Type} (c : Client σ) (policyId name : String)
    (oauth signature : List (String × GoValue)) (w : σ) (request : WebhookSecurityPolicyRequest)
    (e : GoError) (hid : policyId ≠ "") (hname : name ≠ "")
    (hreq : buildRequest name oauth signature = .ok request) :
    ((createReply c request w).err = some e →
      ∃ rerr w1, CreateWebhookSecurityPolicy c name oauth signature w = .ok ((none, rerr), w1) ∧
        rerr.StatusCode = 500 ∧ rerr.StatusCode ≠ 429 ∧
        ∃ err, rerr.Err = some err ∧ err.Is e = true) ∧
    ((readReply c policyId w).err = some e →
      ∃ rerr w1, ReadWebhookSecurityPolicy c policyId w = ((none, rerr), w1) ∧
        rerr.StatusCode = 500 ∧ rerr.StatusCode ≠ 429 ∧ rerr.Err = some e) ∧
    ((updateReply c policyId request w).err = some e →
      ∃ rerr w1, UpdateWebhookSecurityPolicy c policyId name oauth signature w = .ok (rerr, w1) ∧
        rerr.StatusCode = 500 ∧ rerr.StatusCode ≠ 429 ∧
        ∃ err, rerr.Err = some err ∧ err.Is e = true) ∧
    ((deleteReply c policyId w).err = some e →
      ∃ rerr w1, DeleteWebhookSecurityPolicy c policyId w = ((false, rerr), w1) ∧
        rerr.StatusCode = 500 ∧ rerr.StatusCode ≠ 429 ∧ rerr.Err = some e) := by
  refine ⟨?_, ?_, ?_, ?_⟩
  · intro herr
    exact ⟨_, _, Create_transport_error c name oauth signature w request e hname hreq herr,
      rfl, by simp, _, rfl, GoError.Is_wrap _ e⟩
  · intro herr
    exact ⟨_, _, Read_transport_error c policyId w e hid herr, rfl, by simp, rfl⟩
  · intro herr
    exact ⟨_, _, Update_transport_error c policyId name oauth signature w request e hid hname
      hreq herr, rfl, by simp, _, rfl, GoError.Is_wrap _ e⟩
  · intro herr
    exact ⟨_, _, Delete_transport_error c policyId w e hid herr, rfl, by simp, rfl⟩

/-- Witness of C14 on a server whose connection is reset (status 0). -/
theorem transport_error_final_witness :
    (∃ rerr w1, CreateWebhookSecurityPolicy (countingServer connectionReset) "sample" [] [] 0
        = .ok ((none, rerr), w1) ∧ rerr.StatusCode = 500 ∧ rerr.StatusCode ≠ 429 ∧
        ∃ err, rerr.Err = some err ∧
          err.Is (GoError.new "connection reset by peer") = true) ∧
    (∃ rerr w1, ReadWebhookSecurityPolicy (countingServer connectionReset) "policy-1" 0
        = ((none, rerr), w1) ∧ rerr.StatusCode = 500 ∧ rerr.StatusCode ≠ 429 ∧
        rerr.Err = some (GoError.new "connection reset by peer")) :=
  ⟨(transport_error_final (countingServer connectionReset) "policy-1" "sample" [] [] 0
      { Name := "sample", OAuth := none, Signature := none }
      (GoError.new "connection reset by peer") (by decide) (by decide) rfl).1 rfl,
   (transport_error_final (countingServer connectionReset) "policy-1" "sample" [] [] 0
      { Name := "sample", OAuth := none, Signature := none }
      (GoError.new "connection reset by peer") (by decide) (by decide) rfl).2.1 rfl⟩

/-- In every case the boolean `DeleteWebhookSecurityPolicy` returns is true
exactly when the error it returns is nil. -/
theorem Delete_flag_iff {σ : Type} (c : Client σ) (policyId : String) (w : σ) :
    (DeleteWebhookSecurityPolicy c policyId w).1.1 = true ↔
      (DeleteWebhookSecurityPolicy c policyId w).1.2.Err = none := by
  by_cases hid : policyId = ""
  · simp [DeleteWebhookSecurityPolicy, hid]
  · cases herr : (deleteReply c policyId w).err with
    | some e => rw [Delete_transport_error c policyId w e hid herr]; simp
    | none =>
      by_cases hs : 300 ≤ (deleteReply c policyId w).statusCode ∧
          (deleteReply c policyId w).statusCode ≠ 404
      · rw [Delete_status_error c policyId w hid herr hs.1 hs.2]; simp
      · rw [Delete_done c policyId w hid herr (by omega)]; simp

/-- C15: for a non-empty id, a reply without transport error and with status
404 makes `DeleteWebhookSecurityPolicy` return `(true, {200, nil})`, exactly as
a reply with a status below 300 does; and for every id the boolean is true if
and only if the returned `Err` is nil. -/
theorem Delete_ignores_not_found {σ : Type} (c : Client σ) (policyId : String) (w : σ)
    (hid : policyId ≠ "") (herr : (deleteReply c policyId w).err = none) :
    ((deleteReply c policyId w).statusCode = 404 →
      (DeleteWebhookSecurityPolicy c policyId w).1 = (true, { StatusCode := 200, Err := none })) ∧
    ((deleteReply c policyId w).statusCode < 300 →
      (DeleteWebhookSecurityPolicy c policyId w).1 = (true, { StatusCode := 200, Err := none })) ∧
    (∀ (anyId : String) (anyWorld : σ),
      (DeleteWebhookSecurityPolicy c anyId anyWorld).1.1 = true ↔
        (DeleteWebhookSecurityPolicy c anyId anyWorld).1.2.Err = none) := by
  refine ⟨?_, ?_, fun anyId anyWorld => Delete_flag_iff c anyId anyWorld⟩
  · intro hs
    rw [Delete_done c policyId w hid herr (Or.inr hs)]
  · intro hs
    rw [Delete_done c policyId w hid herr (Or.inl hs)]

/-- Witness of C15 on a server that answers 404. -/
theorem Delete_ignores_not_found_witness :
    (DeleteWebhookSecurityPolicy (countingServer notFound) "policy-1" 0).1
      = (true, { StatusCode := 200, Err := none }) :=
  (Delete_ignores_not_found (countingServer notFound) "policy-1" 0 (by decide) rfl).1 rfl

/-- Whatever `CreateWebhookSecurityPolicy` returns, the response is present
exactly when `Err` is absent, and then the status is 200. -/
theorem Create_shape {σ : Type} (c : Client σ) (name : String)
    (oauth signature : List (String × GoValue)) (w : σ)
    (resp : Option WebhookSecurityPolicyResponse) (rerr : RequestError) (w1 : σ)
    (h : CreateWebhookSecurityPolicy c name oauth signature w = .ok ((resp, rerr), w1)) :
    (resp.isSome = true ↔ rerr.Err = none) ∧ (rerr.Err = none → rerr.StatusCode = 200) := by
  by_cases hname : name = ""
  · simp only [CreateWebhookSecurityPolicy, if_pos hname, Except.ok.injEq, Prod.mk.injEq] at h
    obtain ⟨⟨h1, h2⟩, _⟩ := h
    subst h1 h2
    simp
  · cases hreq : buildRequest name oauth signature with
    | error p => simp [CreateWebhookSecurityPolicy, hname, hreq] at h
    | ok request =>
      cases herr : (createReply c request w).err with
      | some e =>
        rw [Create_transport_error c name oauth signature w request e hname hreq herr] at h
        simp only [Except.ok.injEq, Prod.mk.injEq] at h
        obtain ⟨⟨h1, h2⟩, _⟩ := h
        subst h1 h2
        simp
      | none =>
        by_cases hs : 300 ≤ (createReply c request w).statusCode
        · rw [Create_status_error c name oauth signature w request hname hreq herr hs] at h
          simp only [Except.ok.injEq, Prod.mk.injEq] at h
          obtain ⟨⟨h1, h2⟩, _⟩ := h
          subst h1 h2
          simp
        · rw [Create_decoded c name oauth signature w request hname hreq herr (by omega)] at h
          simp only [Except.ok.injEq, Prod.mk.injEq] at h
          obtain ⟨h12, _⟩ := h
          have hshape := parseSecurityPolicyResponse_shape c.jsonUnmarshal
            (createReply c request w).body
          rw [h12] at hshape
          exact ⟨hshape.1, hshape.2.1⟩

/-- Whatever `ReadWebhookSecurityPolicy` returns, the response is present exactly
when `Err` is absent, and then the status is 200. -/
theorem Read_shape {σ : Type} (c : Client σ) (policyId : String) (w : σ) :
    ((ReadWebhookSecurityPolicy c policyId w).1.1.isSome = true ↔
      (ReadWebhookSecurityPolicy c policyId w).1.2.Err = none) ∧
    ((ReadWebhookSecurityPolicy c policyId w).1.2.Err = none →
      (ReadWebhookSecurityPolicy c policyId w).1.2.StatusCode = 200) := by
  by_cases hid : policyId = ""
  · simp [ReadWebhookSecurityPolicy, hid]
  · cases herr : (readReply c policyId w).err with
    | some e => rw [Read_transport_error c policyId w e hid herr]; simp
    | none =>
      rw [Read_decoded c policyId w hid herr]
      have hshape := parseSecurityPolicyResponse_shape c.jsonUnmarshal
        (readReply c policyId w).body
      exact ⟨hshape.1, hshape.2.1⟩

/-- A panic of `blockOf` is a failed type assertion. -/
theorem blockOf_error (d : ResourceData) (key : String) (p : Panic)
    (h : blockOf d key = .error p) : p ≠ Panic.nilDereference := by
  unfold blockOf at h
  split at h
  · split at h <;> simp at h <;> subst h <;> simp
  · simp at h

/-- A panic of `refreshOAuth` is a failed type assertion. -/
theorem refreshOAuth_error (policy : WebhookSecurityPolicyResult) (d : ResourceData) (p : Panic)
    (h : refreshOAuth policy d = .error p) : p ≠ Panic.nilDereference := by
  unfold refreshOAuth at h
  split at h
  · split at h
    · rename_i q hq
      simp only [Except.error.injEq] at h
      subst h
      exact blockOf_error d "oauth" q hq
    · split at h
      · split at h <;> simp at h
      · simp at h
  · simp at h

/-- The resource Read never dereferences a nil response. -/
theorem resourceRead_no_nil_dereference {σ : Type} (c : Client σ) (d : ResourceData) (w : σ) :
    resourceSendgridWebhookSecurityPolicyRead c d w ≠ .error Panic.nilDereference := by
  unfold resourceSendgridWebhookSecurityPolicyRead
  intro h
  cases hE : (ReadWebhookSecurityPolicy c d.Id w).1.2.Err with
  | some e => simp [hE] at h
  | none =>
    have hsome := (Read_shape c d.Id w).1.mpr hE
    obtain ⟨webhook, hw⟩ := Option.isSome_iff_exists.mp hsome
    simp only [hE, hw] at h
    split at h
    · rename_i q hq
      simp only [Except.error.injEq] at h
      exact refreshOAuth_error _ _ q hq h
    · simp at h

/-- C16: whatever `CreateWebhookSecurityPolicy` and `ReadWebhookSecurityPolicy`
return, the response pointer is non-nil if and only if `Err` is absent, and
then the status is 200; a body that fails to decode gives status 500 with a nil
response; and the resource Read, which tests `Err` only, never dereferences a
nil response. -/
theorem response_iff_no_error {σ : Type} (c : Client σ) (policyId name : String)
    (oauth signature : List (String × GoValue)) (w : σ) :
    (∀ resp rerr w1,
      CreateWebhookSecurityPolicy c name oauth signature w = .ok ((resp, rerr), w1) →
      (resp.isSome = true ↔ rerr.Err = none) ∧ (rerr.Err = none → rerr.StatusCode = 200)) ∧
    ((ReadWebhookSecurityPolicy c policyId w).1.1.isSome = true ↔
      (ReadWebhookSecurityPolicy c policyId w).1.2.Err = none) ∧
    ((ReadWebhookSecurityPolicy c policyId w).1.2.Err = none →
      (ReadWebhookSecurityPolicy c policyId w).1.2.StatusCode = 200) ∧
    (∀ respBody err, c.jsonUnmarshal respBody = .error err →
      (parseSecurityPolicyResponse c.jsonUnmarshal respBody).2.StatusCode = 500 ∧
      (parseSecurityPolicyResponse c.jsonUnmarshal respBody).2.Err ≠ none ∧
      (parseSecurityPolicyResponse c.jsonUnmarshal respBody).1 = none) ∧
    (∀ d : ResourceData,
      resourceSendgridWebhookSecurityPolicyRead c d w ≠ .error Panic.nilDereference) := by
  refine ⟨fun resp rerr w1 h => Create_shape c name oauth signature w resp rerr w1 h,
    (Read_shape c policyId w).1, (Read_shape c policyId w).2,
    fun respBody err h => (parseSecurityPolicyResponse_shape c.jsonUnmarshal respBody).2.2 err h,
    fun d => resourceRead_no_nil_dereference c d w⟩

/-- Witness of C16 on a server whose reply has an empty body, which does not
decode: Create returns a nil response with status 500 and an error. -/
theorem response_iff_no_error_witness :
    ∃ rerr, CreateWebhookSecurityPolicy (countingServer emptyBody) "sample" [] [] 0
        = .ok ((none, rerr), 1) ∧
      ((none : Option WebhookSecurityPolicyResponse).isSome = true ↔ rerr.Err = none) ∧
      rerr.StatusCode = 500 := by
  refine ⟨_, rfl, ?_, rfl⟩
  exact ((response_iff_no_error (countingServer emptyBody) "policy-1" "sample" [] [] 0).1
    none _ 1 rfl).1

/-! ### The resource Read -/

theorem lookupField_mapSet_self (key : String) (v : GoValue) (m : List (String × GoValue)) :
    lookupField key (mapSet key v m) = some v := by
  induction m with
  | nil => simp [mapSet, lookupField]
  | cons kv rest ih =>
    obtain ⟨k, x⟩ := kv
    by_cases hk : k = key
    · simp [mapSet, lookupField, hk]
    · simp [mapSet, lookupField, hk, ih]

theorem lookupField_mapSet_ne (key other : String) (v : GoValue) (m : List (String × GoValue))
    (h : key ≠ other) : lookupField other (mapSet key v m) = lookupField other m := by
  induction m with
  | nil => simp [mapSet, lookupField, h]
  | cons kv rest ih =>
    obtain ⟨k, x⟩ := kv
    by_cases hk : k = key
    · subst hk
      simp [mapSet, lookupField, h]
    · by_cases ho : k = other
      · subst ho
        simp [mapSet, lookupField, hk]
      · simp [mapSet, lookupField, hk, ho, ih]

/-- Setting one attribute leaves the block of another attribute as it was. -/
theorem blockOf_Set_ne (d : ResourceData) (key other : String) (v : GoValue) (h : key ≠ other) :
    blockOf (d.Set key v) other = blockOf d other := by
  simp only [blockOf, ResourceData.GetOk, ResourceData.Set, lookupField_mapSet_ne key other _ _ h]

/-- The block of an attribute that holds a list starting with a map. -/
theorem blockOf_of_lookup (d : ResourceData) (key : String) (m : List (String × GoValue))
    (rest : List GoValue) (h : lookupField key d.attrs = some (GoValue.list (GoValue.map m :: rest))) :
    blockOf d key = .ok (some m) := by
  simp [blockOf, ResourceData.GetOk, h, GoValue.isZero]

/-- Refreshing the signature leaves every other attribute as it was. -/
theorem lookupField_refreshSignature (policy : WebhookSecurityPolicyResult) (d : ResourceData)
    (other : String) (h : "signature" ≠ other) :
    lookupField other (refreshSignature policy d).attrs = lookupField other d.attrs := by
  unfold refreshSignature
  split
  · split <;> simp only [ResourceData.Set, lookupField_mapSet_ne _ _ _ _ h]
  · split <;> simp only [ResourceData.Set, lookupField_mapSet_ne _ _ _ _ h]

/-- C17: when the state holds an oauth block with a client secret and a
successful read returns a policy with an oauth block, the resource Read leaves
`oauth.0.client_secret` at its prior value and sets `client_id`, `token_url` and
`scopes` to the values of the response. -/
theorem Read_keeps_client_secret {σ : Type} (c : Client σ) (d : ResourceData) (w : σ)
    (webhook : WebhookSecurityPolicyResponse) (oauth : WebhookOAuthPolicyResponse)
    (existing : List (String × GoValue)) (rest : List GoValue) (secret : GoValue)
    (hresp : (ReadWebhookSecurityPolicy c d.Id w).1.1 = some webhook)
    (herr : (ReadWebhookSecurityPolicy c d.Id w).1.2.Err = none)
    (hoauth : webhook.Policy.OAuth = some oauth)
    (hprior : lookupField "oauth" d.attrs = some (GoValue.list (GoValue.map existing :: rest)))
    (hsecret : lookupField "client_secret" existing = some secret) :
    ∃ d1 block, resourceSendgridWebhookSecurityPolicyRead c d w
        = .ok (([], d1), (ReadWebhookSecurityPolicy c d.Id w).2) ∧
      lookupField "oauth" d1.attrs = some (GoValue.list [GoValue.map block]) ∧
      lookupField "client_secret" block = some secret ∧
      lookupField "client_id" block = some (GoValue.str oauth.ClientID) ∧
      lookupField "token_url" block = some (GoValue.str oauth.TokenURL) ∧
      lookupField "scopes" block = some (GoValue.list (oauth.Scopes.map GoValue.str)) := by
  have hblock : blockOf (d.Set "name" (GoValue.str webhook.Policy.Name)) "oauth"
      = .ok (some existing) := by
    rw [blockOf_Set_ne d "name" "oauth" _ (by decide)]
    exact blockOf_of_lookup d "oauth" existing rest hprior
  have hrefresh : refreshOAuth webhook.Policy (d.Set "name" (GoValue.str webhook.Policy.Name))
      = .ok ((d.Set "name" (GoValue.str webhook.Policy.Name)).Set "oauth"
          (GoValue.list [GoValue.map (mapSet "client_secret" secret
            [("client_id", GoValue.str oauth.ClientID),
             ("token_url", GoValue.str oauth.TokenURL),
             ("scopes", GoValue.list (oauth.Scopes.map GoValue.str))])])) := by
    simp only [refreshOAuth, hoauth, hblock, hsecret]
  refine ⟨refreshSignature webhook.Policy
      ((d.Set "name" (GoValue.str webhook.Policy.Name)).Set "oauth"
        (GoValue.list [GoValue.map (mapSet "client_secret" secret
          [("client_id", GoValue.str oauth.ClientID),
           ("token_url", GoValue.str oauth.TokenURL),
           ("scopes", GoValue.list (oauth.Scopes.map GoValue.str))])])),
    [("client_id", GoValue.str oauth.ClientID), ("client_secret", secret),
     ("token_url", GoValue.str oauth.TokenURL),
     ("scopes", GoValue.list (oauth.Scopes.map GoValue.str))], ?_, ?_, ?_, ?_, ?_, ?_⟩
  · simp only [resourceSendgridWebhookSecurityPolicyRead, herr, hresp, hrefresh]
  · rw [lookupField_refreshSignature _ _ "oauth" (by decide)]
    exact lookupField_mapSet_self "oauth" _ _
  · rfl
  · rfl
  · rfl
  · rfl

/-- Witness of C17: the state holds the secret "secret-1" and the client id
"client-1", the server returns the client id "client-2" and no secret. -/
theorem Read_keeps_client_secret_witness :
    ∃ d1 block, resourceSendgridWebhookSecurityPolicyRead (policyServer oauthPolicy) oauthState 0
        = .ok (([], d1), 1) ∧
      lookupField "oauth" d1.attrs = some (GoValue.list [GoValue.map block]) ∧
      lookupField "client_secret" block = some (GoValue.str "secret-1") ∧
      lookupField "client_id" block = some (GoValue.str "client-2") := by
  obtain ⟨d1, block, h1, h2, h3, h4, _, _⟩ :=
    Read_keeps_client_secret (policyServer oauthPolicy) oauthState 0 oauthPolicy
      { ClientID := "client-2", TokenURL := "http://oauth.example.com/token",
        Scopes := ["webhooks:read", "webhooks:write"] }
      [("client_id", GoValue.str "client-1"), ("client_secret", GoValue.str "secret-1"),
       ("token_url", GoValue.str "http://oauth.example.com/token"),
       ("scopes", GoValue.list [GoValue.str "webhooks:read"])]
      [] (GoValue.str "secret-1") rfl rfl rfl rfl rfl
  exact ⟨d1, block, h1, h2, h3, h4⟩

/-- When the oauth block of the state is well typed, refreshing it does not panic. -/
theorem refreshOAuth_ok (policy : WebhookSecurityPolicyResult) (d : ResourceData)
    (b : Option (List (String × GoValue))) (h : blockOf d "oauth" = .ok b) :
    ∃ d1, refreshOAuth policy d = .ok d1 := by
  unfold refreshOAuth
  simp only [h]
  split
  · split
    · split <;> exact ⟨_, rfl⟩
    · exact ⟨_, rfl⟩
  · exact ⟨_, rfl⟩

/-- With a signature in the response, refreshing the attribute stores the map
that Read builds from it. -/
theorem refreshSignature_some (policy : WebhookSecurityPolicyResult) (d : ResourceData)
    (signature : WebhookSignatureKeysResponse) (hsig : policy.Signature = some signature) :
    refreshSignature policy d
      = d.Set "signature" (GoValue.list [GoValue.map (signatureMapOf signature)]) := by
  unfold refreshSignature signatureMapOf
  simp only [hsig]
  split <;> rfl

/-- C18 (as amended): when a successful read returns a policy with a signature
object, the resource Read stores `signature.0.enabled = true` if and only if
the returned public key is not empty; the map it writes holds `public_key`
exactly when the key is not empty, and `signature.0.public_key` reads back
equal to the returned key in every case, as the empty string when no key came
back; so the policy reads back enabled with a non-empty key when the server
returns a key, and not enabled when the server returns none. -/
theorem Read_signature {σ : Type} (c : Client σ) (d : ResourceData) (w : σ)
    (webhook : WebhookSecurityPolicyResponse) (signature : WebhookSignatureKeysResponse)
    (b : Option (List (String × GoValue)))
    (hresp : (ReadWebhookSecurityPolicy c d.Id w).1.1 = some webhook)
    (herr : (ReadWebhookSecurityPolicy c d.Id w).1.2.Err = none)
    (hsig : webhook.Policy.Signature = some signature)
    (hstate : blockOf d "oauth" = .ok b) :
    ∃ (d0 d1 : ResourceData) (block : List (String × GoValue)),
      resourceSendgridWebhookSecurityPolicyRead c d w
        = .ok (([], d1), (ReadWebhookSecurityPolicy c d.Id w).2) ∧
      d1 = d0.Set "signature" (GoValue.list [GoValue.map (signatureMapOf signature)]) ∧
      ((lookupField "public_key" (signatureMapOf signature)).isSome = true ↔
        signature.PublicKey ≠ "") ∧
      (signature.PublicKey ≠ "" →
        lookupField "public_key" (signatureMapOf signature)
          = some (GoValue.str signature.PublicKey)) ∧
      lookupField "signature" d1.attrs = some (GoValue.list [GoValue.map block]) ∧
      (lookupField "enabled" block = some (GoValue.bool true) ↔ signature.PublicKey ≠ "") ∧
      (signature.PublicKey = "" → lookupField "enabled" block = some (GoValue.bool false)) ∧
      lookupField "public_key" block = some (GoValue.str signature.PublicKey) := by
  have hblock : blockOf (d.Set "name" (GoValue.str webhook.Policy.Name)) "oauth" = .ok b := by
    rw [blockOf_Set_ne d "name" "oauth" _ (by decide)]
    exact hstate
  obtain ⟨d0, hd0⟩ := refreshOAuth_ok webhook.Policy _ b hblock
  have hrun : resourceSendgridWebhookSecurityPolicyRead c d w
      = .ok (([], refreshSignature webhook.Policy d0), (ReadWebhookSecurityPolicy c d.Id w).2) := by
    simp only [resourceSendgridWebhookSecurityPolicyRead, herr, hresp, hd0]
  rw [refreshSignature_some webhook.Policy d0 signature hsig] at hrun
  by_cases hk : signature.PublicKey = ""
  · refine ⟨d0, _, [("enabled", GoValue.bool false), ("public_key", GoValue.str "")], hrun,
      rfl, ?_, ?_, ?_, ?_, ?_, ?_⟩
    · simp [signatureMapOf, hk, lookupField]
    · intro h; exact absurd hk h
    · simp only [ResourceData.Set, lookupField_mapSet_self]
      simp [signatureMapOf, hk, normalizeValue, blockSchema, normalizeBlock, lookupField]
    · simp [lookupField, hk]
    · intro _; rfl
    · simp [lookupField, hk]
  · refine ⟨d0, _, [("enabled", GoValue.bool true),
      ("public_key", GoValue.str signature.PublicKey)], hrun, rfl, ?_, ?_, ?_, ?_, ?_, ?_⟩
    · simp [signatureMapOf, hk, lookupField, mapSet]
    · intro _
      simp [signatureMapOf, hk, lookupField, mapSet]
    · simp only [ResourceData.Set, lookupField_mapSet_self]
      simp [signatureMapOf, hk, normalizeValue, blockSchema, normalizeBlock, lookupField, mapSet]
    · simp [lookupField, hk]
    · intro h; exact absurd h hk
    · simp [lookupField]

/-- Witness of C18: the state asks for a signature, the server returns the
policy with the key "public-key-1". -/
theorem Read_signature_witness :
    ∃ d1 block, resourceSendgridWebhookSecurityPolicyRead (policyServer signedPolicy)
        (signatureState.SetId "policy-1") 0 = .ok (([], d1), 1) ∧
      lookupField "signature" d1.attrs = some (GoValue.list [GoValue.map block]) ∧
      lookupField "enabled" block = some (GoValue.bool true) ∧
      lookupField "public_key" block = some (GoValue.str "public-key-1") := by
  obtain ⟨_, d1, block, h1, _, _, _, h2, h3, _, h4⟩ :=
    Read_signature (policyServer signedPolicy) (signatureState.SetId "policy-1") 0 signedPolicy
      { PublicKey := "public-key-1" } none rfl rfl rfl rfl
  exact ⟨d1, block, h1, h2, h3.mpr (by decide), h4⟩

/-- Counterexample to C18 as stated: the policy was created with signature
`enabled = true`, as the state holds, and the server returns its signature
object without a key; after the Read the state holds `signature.0.enabled =
false`, and it holds a `signature.0.public_key`, the empty string, although no
key came back. -/
theorem Read_signature_without_key :
    lookupField "signature" signatureState.attrs
        = some (GoValue.list [GoValue.map [("enabled", GoValue.bool true)]]) ∧
    ∃ d1, resourceSendgridWebhookSecurityPolicyRead (policyServer keylessPolicy)
        (signatureState.SetId "policy-1") 0 = .ok (([], d1), 1) ∧
      lookupField "signature" d1.attrs
        = some (GoValue.list [GoValue.map
            [("enabled", GoValue.bool false), ("public_key", GoValue.str "")]]) :=
  ⟨rfl, _, rfl, rfl⟩

/-! ### The resource Create on a failed call -/

/-- The type assertion of the policy resource Create needs a result that holds a
pointer: when the retry policy always returns the nil interface itself with its
error, the Create never returns, it panics. -/
theorem policyCreate_panics {σ : Type} (retry : Retry (Option WebhookSecurityPolicyResponse) σ)
    (c : Client σ) (d : ResourceData) (w : σ)
    (hfail : ∀ f w0, ∃ e w1, retry f w0 = .ok ((none, some e), w1)) :
    ∃ p, resourceSendgridWebhookSecurityPolicyCreate retry c d w = .error p := by
  unfold resourceSendgridWebhookSecurityPolicyCreate
  cases h1 : assertString (some (d.Get "name")) with
  | error p => exact ⟨p, rfl⟩
  | ok name =>
    cases h2 : blockOf d "oauth" with
    | error p => exact ⟨p, rfl⟩
    | ok oauth =>
      cases h3 : blockOf d "signature" with
      | error p => exact ⟨p, rfl⟩
      | ok signature =>
        obtain ⟨e, w1, he⟩ := hfail (fun w0 =>
          (CreateWebhookSecurityPolicy c name (oauth.getD []) (signature.getD []) w0).map
            (fun r => ((some r.1.1, r.1.2), r.2))) w
        simp only [he, assertPointer]
        exact ⟨_, rfl⟩

/-- The type assertion of the parse webhook resource Create needs a result that
holds a pointer: when the retry policy always returns the nil interface itself
with its error, the Create never returns, it panics. -/
theorem parseWebhookCreate_panics {σ : Type} (retry : Retry (Option ParseWebhook) σ)
    (c : ParseWebhookClient σ) (d : ResourceData) (w : σ)
    (hfail : ∀ f w0, ∃ e w1, retry f w0 = .ok ((none, some e), w1)) :
    ∃ p, resourceSendgridParseWebhookCreate retry c d w = .error p := by
  unfold resourceSendgridParseWebhookCreate
  cases h1 : assertString (some (d.Get "hostname")) with
  | error p => exact ⟨p, rfl⟩
  | ok hostname =>
    cases h2 : assertString (some (d.Get "url")) with
    | error p => exact ⟨p, rfl⟩
    | ok url =>
      cases h3 : assertBool (some (d.Get "spam_check")) with
      | error p => exact ⟨p, rfl⟩
      | ok spamCheck =>
        cases h4 : assertBool (some (d.Get "send_raw")) with
        | error p => exact ⟨p, rfl⟩
        | ok sendRaw =>
          cases h5 : assertString (some (d.Get "webhook_security_policy_id")) with
          | error p => exact ⟨p, rfl⟩
          | ok securityPolicy =>
            obtain ⟨e, w1, he⟩ := hfail (fun w0 =>
              .ok ((some (c.CreateParseWebhook hostname url spamCheck sendRaw securityPolicy
                w0).1.1, (c.CreateParseWebhook hostname url spamCheck sendRaw securityPolicy
                w0).1.2), (c.CreateParseWebhook hostname url spamCheck sendRaw securityPolicy
                w0).2)) w
            simp only [he, assertPointer]
            exact ⟨_, rfl⟩

/-- On a failed call the closure of the policy Create returns the nil pointer of
the response type inside its `interface{}` result, not the nil interface. -/
theorem createPolicyClosure_failure {σ : Type} (c : Client σ) (name : String)
    (oauth signature : Option (List (String × GoValue))) (w0 : σ)
    (r : (Option (Option WebhookSecurityPolicyResponse) × RequestError) × σ)
    (h : createPolicyClosure c name oauth signature w0 = .ok r) (herr : r.1.2.Err ≠ none) :
    r.1.1 = some none := by
  unfold createPolicyClosure at h
  cases hc : CreateWebhookSecurityPolicy c name (oauth.getD []) (signature.getD []) w0 with
  | error p => simp [hc, Except.map] at h
  | ok r0 =>
    obtain ⟨⟨resp, rerr⟩, w1⟩ := r0
    simp only [hc, Except.map, Except.ok.injEq] at h
    subst h
    have hshape := (Create_shape c name (oauth.getD []) (signature.getD []) w0 resp rerr w1 hc).1
    cases resp with
    | none => rfl
    | some x => exact absurd (hshape.mp rfl) herr

/-- C19: whenever the retry policy returns a non-nil error together with a
result that holds a pointer of the asserted type, as the nil pointer that the
closure returns for a failed call is, `resourceSendgridWebhookSecurityPolicyCreate`
and `resourceSendgridParseWebhookCreate` do not panic on the type assertion:
they return the one error diagnostic built from that error, and the state is
left as it was, so no id is set. -/
theorem Create_failure_diagnostics {σ : Type}
    (retryPolicy : Retry (Option WebhookSecurityPolicyResponse) σ)
    (retryWebhook : Retry (Option ParseWebhook) σ) (c : Client σ) (pc : ParseWebhookClient σ)
    (d : ResourceData) (w w1 : σ) (e : GoError) :
    (∀ (name : String) (oauth signature : Option (List (String × GoValue)))
        (p : Option WebhookSecurityPolicyResponse),
      d.Get "name" = GoValue.str name → blockOf d "oauth" = .ok oauth →
      blockOf d "signature" = .ok signature →
      retryPolicy (createPolicyClosure c name oauth signature) w = .ok ((some p, some e), w1) →
      resourceSendgridWebhookSecurityPolicyCreate retryPolicy c d w
        = .ok (([{ summary := e.Error }], d), w1)) ∧
    (∀ (hostname url : String) (spamCheck sendRaw : Bool) (securityPolicy : String)
        (p : Option ParseWebhook),
      d.Get "hostname" = GoValue.str hostname → d.Get "url" = GoValue.str url →
      d.Get "spam_check" = GoValue.bool spamCheck → d.Get "send_raw" = GoValue.bool sendRaw →
      d.Get "webhook_security_policy_id" = GoValue.str securityPolicy →
      retryWebhook (createWebhookClosure pc hostname url spamCheck sendRaw securityPolicy) w
        = .ok ((some p, some e), w1) →
      resourceSendgridParseWebhookCreate retryWebhook pc d w
        = .ok (([{ summary := e.Error }], d), w1)) ∧
    (∀ (name : String) (oauth signature : Option (List (String × GoValue))) (w0 : σ)
        (r : (Option (Option WebhookSecurityPolicyResponse) × RequestError) × σ),
      createPolicyClosure c name oauth signature w0 = .ok r → r.1.2.Err ≠ none →
      r.1.1 = some none) := by
  refine ⟨?_, ?_, ?_⟩
  · intro name oauth signature p hname hoauth hsig hretry
    unfold createPolicyClosure at hretry
    simp only [resourceSendgridWebhookSecurityPolicyCreate, hname, hoauth, hsig, assertString,
      hretry, assertPointer, diagFromErr]
  · intro hostname url spamCheck sendRaw securityPolicy p hhost hurl hspam hraw hpol hretry
    unfold createWebhookClosure at hretry
    simp only [resourceSendgridParseWebhookCreate, hhost, hurl, hspam, hraw, hpol, assertString,
      assertBool, hretry, assertPointer, diagFromErr]
  · intro name oauth signature w0 r h herr
    exact createPolicyClosure_failure c name oauth signature w0 r h herr

/-- Witness of C19: the server answers the create request with status 400 and
the retry policy hands back the result of the closure with the enhanced error;
both Creates return one diagnostic and leave the state, whose id is empty, as
it was. -/
theorem Create_failure_diagnostics_witness :
    (∃ e : GoError, resourceSendgridWebhookSecurityPolicyCreate passThroughRetry
        (countingServer badRequest) signatureState 0
          = .ok (([{ summary := e.Error }], signatureState), 1) ∧
        stringsContains e.Error "bad request (HTTP 400)" = true) ∧
    (∃ e : GoError, resourceSendgridParseWebhookCreate passThroughRetry failingParseWebhooks
        webhookState 0 = .ok (([{ summary := e.Error }], webhookState), 1) ∧
        stringsContains e.Error "bad request (HTTP 400)" = true) ∧
    signatureState.Id = "" ∧ webhookState.Id = "" := by
  refine ⟨⟨GoError.wrap (statusPhrase 400 ++ ": " ++ createRefused.Error) createRefused, ?_, ?_⟩,
    ⟨GoError.wrap (statusPhrase 400 ++ ": " ++ (GoError.new "bad request").Error)
      (GoError.new "bad request"), ?_, ?_⟩, rfl, rfl⟩
  · exact (Create_failure_diagnostics passThroughRetry passThroughRetry
      (countingServer badRequest) failingParseWebhooks signatureState 0 1 _).1
      "Signature Only Policy" none (some [("enabled", GoValue.bool true)]) none rfl rfl rfl rfl
  · decide
  · exact (Create_failure_diagnostics passThroughRetry passThroughRetry
      (countingServer badRequest) failingParseWebhooks webhookState 0 1 _).2.1
      "parse.foo.bar" "https://foo.bar/sendgrid/inbound" false false "" none
      rfl rfl rfl rfl rfl rfl
  · decide

/-! ### `convertInterfaceArrayToStringArray` -/

/-- The loop keeps the length of the slice it fills. -/
theorem convertLoop_length (xs : List GoValue) :
    ∀ (i : Nat) (result : List String), (convertLoop xs i result).length = result.length := by
  induction xs with
  | nil => intro i result; rfl
  | cons v rest ih => intro i result; simp [convertLoop, ih]

/-- The loop leaves the indices below its start as they were. -/
theorem convertLoop_below (xs : List GoValue) :
    ∀ (i : Nat) (result : List String) (j : Nat), j < i →
      (convertLoop xs i result)[j]? = result[j]? := by
  induction xs with
  | nil => intro i result j _; rfl
  | cons v rest ih =>
    intro i result j hj
    simp only [convertLoop]
    rw [ih (i + 1) _ j (by omega), List.getElem?_set_ne (by omega)]

/-- The loop stores the conversion of element `k` of its input at index
`i + k` of the slice it fills. -/
theorem convertLoop_at (xs : List GoValue) :
    ∀ (i : Nat) (result : List String) (k : Nat) (v : GoValue), xs[k]? = some v →
      i + k < result.length → (convertLoop xs i result)[i + k]? = some (convertElement v) := by
  induction xs with
  | nil => intro i result k v h; simp at h
  | cons x rest ih =>
    intro i result k v h hlen
    cases k with
    | zero =>
      simp only [List.getElem?_cons_zero, Option.some.injEq] at h
      subst h
      simp only [convertLoop, Nat.add_zero]
      rw [convertLoop_below rest (i + 1) _ i (by omega)]
      simp only [Nat.add_zero] at hlen
      simp [List.getElem?_set_self, hlen]
    | succ k =>
      simp only [List.getElem?_cons_succ] at h
      simp only [convertLoop]
      have := ih (i + 1) (result.set i (convertElement x)) k v h (by simp; omega)
      rw [show i + (k + 1) = i + 1 + k by omega]
      exact this

/-- C20: `convertInterfaceArrayToStringArray` returns the empty non-nil slice
for a nil input; for every input list the output is a non-nil slice of the
same length whose element at each index is the input element itself when that
is a string and its `%v` rendering otherwise; so a list of strings comes back
as the same strings in the same order. -/
theorem convertInterfaceArrayToStringArray_spec :
    convertInterfaceArrayToStringArray none = some [] ∧
    (∀ xs : List GoValue, ∃ ys, convertInterfaceArrayToStringArray (some xs) = some ys ∧
      ys.length = xs.length ∧
      (∀ (i : Nat) (str : String), xs[i]? = some (GoValue.str str) → ys[i]? = some str) ∧
      (∀ (i : Nat) (v : GoValue), xs[i]? = some v → (∀ str, v ≠ GoValue.str str) →
        ys[i]? = some v.format)) ∧
    (∀ strs : List String,
      convertInterfaceArrayToStringArray (some (strs.map GoValue.str)) = some strs) := by
  have hat : ∀ (xs : List GoValue) (i : Nat) (v : GoValue), xs[i]? = some v →
      (convertLoop xs 0 (List.replicate xs.length ""))[i]? = some (convertElement v) := by
    intro xs i v h
    have hi : i < xs.length := by
      rcases Nat.lt_or_ge i xs.length with hlt | hge
      · exact hlt
      · rw [List.getElem?_eq_none hge] at h; simp at h
    have := convertLoop_at xs 0 (List.replicate xs.length "") i v h (by simpa using hi)
    simpa using this
  refine ⟨rfl, ?_, ?_⟩
  · intro xs
    refine ⟨_, rfl, by simp [convertLoop_length], ?_, ?_⟩
    · intro i str h
      exact hat xs i _ h
    · intro i v h hv
      rw [hat xs i v h]
      cases v with
      | str s => exact absurd rfl (hv s)
      | nil => rfl
      | bool b => rfl
      | int n => rfl
      | list l => rfl
      | map m => rfl
  · intro strs
    simp only [convertInterfaceArrayToStringArray, Option.some.injEq]
    apply List.ext_getElem?
    intro i
    rcases Nat.lt_or_ge i strs.length with hlt | hge
    · have hx : (strs.map GoValue.str)[i]? = some (GoValue.str strs[i]) := by
        simp [List.getElem?_map, List.getElem?_eq_getElem hlt]
      rw [hat _ i _ hx, List.getElem?_eq_getElem hlt]
      rfl
    · rw [List.getElem?_eq_none (by simpa [convertLoop_length] using hge),
        List.getElem?_eq_none hge]

/-- Witness of C20 on a slice that mixes a string, a number and a boolean. -/
theorem convertInterfaceArrayToStringArray_spec_witness :
    convertInterfaceArrayToStringArray
        (some [GoValue.str "webhooks:read", GoValue.int 7, GoValue.bool true])
      = some ["webhooks:read", "7", "true"] ∧
    ∃ ys, convertInterfaceArrayToStringArray
        (some [GoValue.str "webhooks:read", GoValue.int 7, GoValue.bool true]) = some ys ∧
      ys[0]? = some "webhooks:read" ∧ ys[1]? = some (GoValue.int 7).format := by
  refine ⟨by decide, ?_⟩
  obtain ⟨ys, h1, _, h3, h4⟩ := convertInterfaceArrayToStringArray_spec.2.1
    [GoValue.str "webhooks:read", GoValue.int 7, GoValue.bool true]
  exact ⟨ys, h1, h3 0 "webhooks:read" rfl, h4 1 (GoValue.int 7) rfl (by intro str h; cases h)⟩

/-! ### The parse webhook Delete -/

/-- In front of a recording client, `n` runs of the first closure append `n`
updates with an empty security policy to the list of calls. -/
theorem closureRuns_detach (server : ParseWebhookServer) (hostname : String)
    (spamCheck sendRaw : Bool) :
    ∀ (n : Nat) (log : List ParseWebhookCall),
      closureRuns (detachClosure (recordingParseWebhooks server) hostname spamCheck sendRaw) n log
        = some (log ++ List.replicate n (ParseWebhookCall.update hostname spamCheck sendRaw "")) := by
  intro n
  induction n with
  | zero => intro log; simp [closureRuns]
  | succ n ih =>
    intro log
    have hstep : detachClosure (recordingParseWebhooks server) hostname spamCheck sendRaw log
        = .ok ((none, server.updateReply log),
            log ++ [ParseWebhookCall.update hostname spamCheck sendRaw ""]) := rfl
    simp only [closureRuns, hstep]
    rw [ih]
    simp [List.replicate_succ]

/-- In front of a recording client, `n` runs of the second closure append `n`
deletes to the list of calls. -/
theorem closureRuns_delete (server : ParseWebhookServer) (hostname : String) :
    ∀ (n : Nat) (log : List ParseWebhookCall),
      closureRuns (deleteClosure (recordingParseWebhooks server) hostname) n log
        = some (log ++ List.replicate n (ParseWebhookCall.delete hostname)) := by
  intro n
  induction n with
  | zero => intro log; simp [closureRuns]
  | succ n ih =>
    intro log
    have hstep : deleteClosure (recordingParseWebhooks server) hostname log
        = .ok ((some (server.deleteReply log).1, (server.deleteReply log).2),
            log ++ [ParseWebhookCall.delete hostname]) := rfl
    simp only [closureRuns, hstep]
    rw [ih]
    simp [List.replicate_succ]

/-- A run of the retry policy that calls the closure once invokes the closure. -/
theorem contractRetry_invokes {ρ σ : Type} : InvokesClosure (contractRetry : Retry ρ σ) := by
  intro f w r h
  refine ⟨1, le_refl 1, ?_⟩
  unfold contractRetry at h
  cases hf : f w with
  | error p => simp [hf] at h
  | ok r0 =>
    simp only [hf] at h
    simp only [closureRuns, hf]
    cases he : r0.1.2.Err with
    | none => simp only [he, Except.ok.injEq] at h; subst h; rfl
    | some e => simp only [he, Except.ok.injEq] at h; subst h; rfl

/-- What `resourceSendgridParseWebhookDelete` does when the state names a
security policy and holds well-typed flags. -/
theorem Delete_secured_eq {σ : Type} (retry : Retry Bool σ) (c : ParseWebhookClient σ)
    (d : ResourceData) (w : σ) (policyId : String) (spamCheck sendRaw : Bool)
    (hid : d.Get "webhook_security_policy_id" = GoValue.str policyId) (hne : policyId ≠ "")
    (hspam : d.Get "spam_check" = GoValue.bool spamCheck)
    (hraw : d.Get "send_raw" = GoValue.bool sendRaw) :
    resourceSendgridParseWebhookDelete retry c d w =
      match retry (detachClosure c d.Id spamCheck sendRaw) w with
      | .error p => .error p
      | .ok r =>
        match r.1.2 with
        | some updateErr => .ok ((diagFromErr (some updateErr), d), r.2)
        | none => deleteUnderRetry retry c d r.2 := by
  simp only [resourceSendgridParseWebhookDelete, hid, hspam, hraw, assertString, assertBool,
    ne_eq, hne, not_false_eq_true, if_true]

/-- What `resourceSendgridParseWebhookDelete` does when the state names no
security policy. -/
theorem Delete_plain_eq {σ : Type} (retry : Retry Bool σ) (c : ParseWebhookClient σ)
    (d : ResourceData) (w : σ)
    (hid : d.Get "webhook_security_policy_id" = GoValue.str "") :
    resourceSendgridParseWebhookDelete retry c d w = deleteUnderRetry retry c d w := by
  simp only [resourceSendgridParseWebhookDelete, hid, assertString, ne_eq, not_true_eq_false,
    if_false]

/-- The delete step in front of a recording client appends deletes only, at
least one, and leaves the state as it was. -/
theorem deleteUnderRetry_log (retry : Retry Bool (List ParseWebhookCall))
    (server : ParseWebhookServer) (d : ResourceData) (hretry : InvokesClosure retry)
    (log1 : List ParseWebhookCall) (diags : List Diagnostic) (d1 : ResourceData)
    (log : List ParseWebhookCall)
    (h : deleteUnderRetry retry (recordingParseWebhooks server) d log1 = .ok ((diags, d1), log)) :
    ∃ m, 1 ≤ m ∧ log = log1 ++ List.replicate m (ParseWebhookCall.delete d.Id) := by
  unfold deleteUnderRetry at h
  cases hr : retry (deleteClosure (recordingParseWebhooks server) d.Id) log1 with
  | error p => simp [hr] at h
  | ok r =>
    obtain ⟨m, hm, hruns⟩ := hretry _ _ _ hr
    rw [closureRuns_delete] at hruns
    simp only [Option.some.injEq] at hruns
    simp only [hr] at h
    refine ⟨m, hm, ?_⟩
    cases he : r.1.2 with
    | none =>
      simp only [he, Except.ok.injEq, Prod.mk.injEq] at h
      rw [← h.2, ← hruns]
    | some e =>
      simp only [he, Except.ok.injEq, Prod.mk.injEq] at h
      rw [← h.2, ← hruns]

/-- C21: in front of a client that records the calls it issues, and under a
retry policy that only invokes the closure it is given, the parse webhook
Delete detaches before deleting. With a non-empty `webhook_security_policy_id`
it first issues updates of the webhook with an empty security policy and the
`spam_check` and `send_raw` of the state; when that update fails it returns the
diagnostics of its error and has issued no delete; when it succeeds the deletes
follow the updates. With an empty `webhook_security_policy_id` it issues
deletes only, and no update. -/
theorem Delete_detaches_first (retry : Retry Bool (List ParseWebhookCall))
    (server : ParseWebhookServer) (d : ResourceData) (policyId : String)
    (log0 : List ParseWebhookCall) (hretry : InvokesClosure retry)
    (hid : d.Get "webhook_security_policy_id" = GoValue.str policyId) :
    (policyId ≠ "" → ∀ spamCheck sendRaw,
      d.Get "spam_check" = GoValue.bool spamCheck → d.Get "send_raw" = GoValue.bool sendRaw →
      (∀ x updateErr log1,
        retry (detachClosure (recordingParseWebhooks server) d.Id spamCheck sendRaw) log0
          = .ok ((x, some updateErr), log1) →
        resourceSendgridParseWebhookDelete retry (recordingParseWebhooks server) d log0
          = .ok ((diagFromErr (some updateErr), d), log1) ∧
        ∃ n, 1 ≤ n ∧
          log1 = log0 ++ List.replicate n (ParseWebhookCall.update d.Id spamCheck sendRaw "")) ∧
      (∀ x log1,
        retry (detachClosure (recordingParseWebhooks server) d.Id spamCheck sendRaw) log0
          = .ok ((x, none), log1) →
        ∀ diags d1 log,
          resourceSendgridParseWebhookDelete retry (recordingParseWebhooks server) d log0
            = .ok ((diags, d1), log) →
          ∃ n m, 1 ≤ n ∧ 1 ≤ m ∧
            log = log0 ++ List.replicate n (ParseWebhookCall.update d.Id spamCheck sendRaw "")
              ++ List.replicate m (ParseWebhookCall.delete d.Id)) ∧
      (∀ diags d1 log,
        resourceSendgridParseWebhookDelete retry (recordingParseWebhooks server) d log0
          = .ok ((diags, d1), log) →
        ∃ n m, 1 ≤ n ∧
          log = log0 ++ List.replicate n (ParseWebhookCall.update d.Id spamCheck sendRaw "")
            ++ List.replicate m (ParseWebhookCall.delete d.Id))) ∧
    (policyId = "" → ∀ diags d1 log,
      resourceSendgridParseWebhookDelete retry (recordingParseWebhooks server) d log0
        = .ok ((diags, d1), log) →
      ∃ m, 1 ≤ m ∧ log = log0 ++ List.replicate m (ParseWebhookCall.delete d.Id)) := by
  refine ⟨?_, ?_⟩
  · intro hne spamCheck sendRaw hspam hraw
    have heq := Delete_secured_eq retry (recordingParseWebhooks server) d log0 policyId
      spamCheck sendRaw hid hne hspam hraw
    have hfail : ∀ x updateErr log1,
        retry (detachClosure (recordingParseWebhooks server) d.Id spamCheck sendRaw) log0
          = .ok ((x, some updateErr), log1) →
        resourceSendgridParseWebhookDelete retry (recordingParseWebhooks server) d log0
          = .ok ((diagFromErr (some updateErr), d), log1) ∧
        ∃ n, 1 ≤ n ∧
          log1 = log0 ++ List.replicate n
            (ParseWebhookCall.update d.Id spamCheck sendRaw "") := by
      intro x updateErr log1 hr
      obtain ⟨n, hn, hruns⟩ := hretry _ _ _ hr
      rw [closureRuns_detach] at hruns
      simp only [Option.some.injEq] at hruns
      refine ⟨?_, n, hn, hruns.symm⟩
      rw [heq]
      simp only [hr]
    have hdone : ∀ x log1,
        retry (detachClosure (recordingParseWebhooks server) d.Id spamCheck sendRaw) log0
          = .ok ((x, none), log1) →
        ∀ diags d1 log,
          resourceSendgridParseWebhookDelete retry (recordingParseWebhooks server) d log0
            = .ok ((diags, d1), log) →
          ∃ n m, 1 ≤ n ∧ 1 ≤ m ∧
            log = log0 ++ List.replicate n (ParseWebhookCall.update d.Id spamCheck sendRaw "")
              ++ List.replicate m (ParseWebhookCall.delete d.Id) := by
      intro x log1 hr diags d1 log h
      obtain ⟨n, hn, hruns⟩ := hretry _ _ _ hr
      rw [closureRuns_detach] at hruns
      simp only [Option.some.injEq] at hruns
      rw [heq] at h
      simp only [hr] at h
      obtain ⟨m, hm, hlog⟩ := deleteUnderRetry_log retry server d hretry log1 diags d1 log h
      exact ⟨n, m, hn, hm, by rw [hlog, ← hruns]⟩
    refine ⟨hfail, hdone, ?_⟩
    intro diags d1 log h
    cases hr : retry (detachClosure (recordingParseWebhooks server) d.Id spamCheck sendRaw)
        log0 with
    | error p =>
      rw [heq] at h
      simp [hr] at h
    | ok r =>
      obtain ⟨⟨x, e⟩, log1⟩ := r
      cases e with
      | some updateErr =>
        obtain ⟨hres, n, hn, hlog1⟩ := hfail x updateErr log1 hr
        rw [hres] at h
        simp only [Except.ok.injEq, Prod.mk.injEq] at h
        exact ⟨n, 0, hn, by rw [← h.2, hlog1]; simp⟩
      | none =>
        obtain ⟨n, m, hn, _, hlog⟩ := hdone x log1 hr diags d1 log h
        exact ⟨n, m, hn, hlog⟩
  · intro hempty diags d1 log h
    subst hempty
    rw [Delete_plain_eq retry (recordingParseWebhooks server) d log0 hid] at h
    exact deleteUnderRetry_log retry server d hretry log0 diags d1 log h

/-- Witness of C21 with a retry policy that calls the closure once: on a server
that accepts every call the update with an empty policy comes first and the
delete second; on a server that refuses the update no delete is issued; on a
state without a policy only the delete is issued. -/
theorem Delete_detaches_first_witness :
    resourceSendgridParseWebhookDelete contractRetry (recordingParseWebhooks acceptingServer)
        securedWebhookState []
      = .ok (([], securedWebhookState),
          [ParseWebhookCall.update "parse.foo.bar" false true "",
           ParseWebhookCall.delete "parse.foo.bar"]) ∧
    (resourceSendgridParseWebhookDelete contractRetry (recordingParseWebhooks refusingServer)
        securedWebhookState []
      = .ok ((diagFromErr (enhanceError (some (GoError.new "forbidden")) 403),
              securedWebhookState),
          [ParseWebhookCall.update "parse.foo.bar" false true ""]) ∧
      ∃ n, 1 ≤ n ∧ [ParseWebhookCall.update "parse.foo.bar" false true ""]
        = [] ++ List.replicate n (ParseWebhookCall.update securedWebhookState.Id false true "")) ∧
    (∃ m, 1 ≤ m ∧ [ParseWebhookCall.delete "parse.foo.bar"]
        = [] ++ List.replicate m (ParseWebhookCall.delete plainWebhookState.Id)) := by
  refine ⟨rfl, ?_, ?_⟩
  · exact ((Delete_detaches_first contractRetry refusingServer securedWebhookState "policy-1" []
      contractRetry_invokes rfl).1 (by decide) false true rfl rfl).1 none
        (GoError.wrap "forbidden (HTTP 403): forbidden" (GoError.new "forbidden"))
        [ParseWebhookCall.update "parse.foo.bar" false true ""] rfl
  · exact (Delete_detaches_first contractRetry acceptingServer plainWebhookState "" []
      contractRetry_invokes rfl).2 rfl [] plainWebhookState
        [ParseWebhookCall.delete "parse.foo.bar"] rfl

end Sendgrid
